import Mathlib

set_option maxRecDepth 16384

set_option maxHeartbeats 1600000

/-!
Shallow embedding of the GamePassRewards contract
(src/contracts/src/GamePassRewards.sol) together with the parts of
GamePassToken (mint with a max-supply cap) that the rewards contract calls.

Solidity semantics captured here:
* every external call is atomic: a failed `require` reverts the whole call,
  so each operation is a function `RewardsState → Except RewardsError (RewardsState × List RewardsEvent)`
  and `run` keeps the pre-state on error (transactional rollback);
* `uint256` values are modelled as `Nat` (no arithmetic in the contract can
  overflow 2^256 given the max-supply cap, and all subtractions are guarded
  by explicit `require`s checked before they happen);
* `mapping(address => uint256)` / `mapping(address => bool)` are functions
  updated pointwise;
* the token collaborator is folded into the state: `engineBalance` is the
  rewards contract's own token balance and `tokenTotalSupply` the token's
  total supply (the token is deployed with the engine registered as its
  authorized minter, as the test/deployment setup does, and the engine's
  contract address is nonzero, so mint's caller/zero-address checks pass).
-/

namespace GamePass

abbrev Address := Nat

/-- One leaderboard entry, mirroring the Solidity struct `LeaderboardEntry`. -/
structure LeaderboardEntry where
  player : Address
  score : Nat
  timestamp : Nat
  claimed : Bool
deriving DecidableEq, Repr, Inhabited

/-- Full storage of the GamePassRewards contract (plus the token collaborator). -/
structure RewardsState where
  owner : Address
  backendValidator : Address
  prizePool : Nat
  prizePoolSnapshot : Nat
  minScoreThreshold : Nat
  leaderboard : List LeaderboardEntry
  playerIndex : Address → Nat
  hasClaimed : Address → Bool
  engineBalance : Nat
  tokenTotalSupply : Nat

/-- Named errors for every `require` in the contract (and in the token's mint). -/
inductive RewardsError where
  | Unauthorized
  | InvalidPlayer
  | InvalidAddress
  | ScoreTooLow
  | ScoreNotImproved
  | AlreadyClaimed
  | NotRanked
  | InvalidIndex
  | IndexOutOfBounds
  | PlayerMismatch
  | EntryAlreadyClaimed
  | NoReward
  | InsufficientPool
  | TransferFailed
  | InvalidAmount
  | ExceedsMaxSupply
deriving DecidableEq, Repr

/-- Events emitted by the contract. -/
inductive RewardsEvent where
  | ScoreSubmitted (player : Address) (score : Nat) (timestamp : Nat)
  | RewardsDistributed (player : Address) (amount : Nat) (rank : Nat)
  | PrizePoolFunded (amount : Nat) (newTotal : Nat)
deriving DecidableEq, Repr

def MAX_LEADERBOARD_SIZE : Nat := 100

def FIRST_PLACE_PERCENT : Nat := 4000

def SECOND_PLACE_PERCENT : Nat := 2500

def THIRD_PLACE_PERCENT : Nat := 1500

def PLACES_4_10_PERCENT : Nat := 1000

def PARTICIPATION_PERCENT : Nat := 1000

/-- GamePassToken max supply: 1 billion tokens with 18 decimals. -/
def MAX_SUPPLY : Nat := 1000000000 * 10 ^ 18

/-- Pointwise mapping update, `playerIndex[a] = v`. -/
def setIndex (f : Address → Nat) (a : Address) (v : Nat) : Address → Nat :=
  fun x => if x = a then v else f x

/-- Pointwise mapping update, `hasClaimed[a] = true`. -/
def setClaimed (f : Address → Bool) (a : Address) : Address → Bool :=
  fun x => if x = a then true else f x

/-- Apply a list of `playerIndex` assignments in order. -/
def writeIndices (f : Address → Nat) : List (Address × Nat) → (Address → Nat)
  | [] => f
  | u :: rest => writeIndices (setIndex f u.1 u.2) rest

/-- The assignments `playerIndex[l[k].player] = n + k + 1` performed by the
shift loops of `_insertIntoLeaderboard` / `_removeFromLeaderboard` for the
entries that end up at positions `n, n+1, ...` of the new array.  (The
Solidity loops write these in a different order, but every key is a distinct
player in any state the contract reaches, so the order is immaterial.) -/
def indexAssignments : List LeaderboardEntry → Nat → List (Address × Nat)
  | [], _ => []
  | e :: rest, n => (e.player, n + 1) :: indexAssignments rest (n + 1)

/-- Insertion point search of `_insertIntoLeaderboard`: the first index whose
stored score is strictly below the new score (`_score > leaderboard[i].score`),
or the length when there is none. -/
def findInsertIndex (score : Nat) : List LeaderboardEntry → Nat
  | [] => 0
  | e :: rest => if e.score < score then 0 else findInsertIndex score rest + 1

/-- Functional form of the in-place array insertion: the shift loop turns the
array into `take i ++ new :: drop i`. -/
def insertAt (l : List LeaderboardEntry) (i : Nat) (e : LeaderboardEntry) : List LeaderboardEntry :=
  l.take i ++ e :: l.drop i

/-- Functional form of the in-place array removal of `_removeFromLeaderboard`:
the shift-left loop plus `pop` turn the array into `take i ++ drop (i+1)`. -/
def removeAt (l : List LeaderboardEntry) (i : Nat) : List LeaderboardEntry :=
  l.take i ++ l.drop (i + 1)

/-- Source function `_insertIntoLeaderboard(_player, _score)`.  Inserts the new entry at the
insertion point, reassigns `playerIndex` for every shifted entry, records the
new player's 1-indexed position, and finally evicts the last entry when the
bound of 100 is exceeded (resetting the evicted player's index — which is the
new player itself when the insertion point was past the end of a full board). -/
def insertIntoLeaderboard (s : RewardsState) (p : Address) (score ts : Nat) : RewardsState :=
  let newEntry : LeaderboardEntry := ⟨p, score, ts, false⟩
  let idx := findInsertIndex score s.leaderboard
  let lb1 := insertAt s.leaderboard idx newEntry
  let pi1 := writeIndices s.playerIndex (indexAssignments (s.leaderboard.drop idx) (idx + 1))
  let pi2 := setIndex pi1 p (idx + 1)
  if MAX_LEADERBOARD_SIZE < lb1.length then
    { s with leaderboard := lb1.dropLast,
             playerIndex := setIndex pi2 (lb1.getLastD newEntry).player 0 }
  else
    { s with leaderboard := lb1, playerIndex := pi2 }

/-- Source function `_removeFromLeaderboard(_index)`: `require(_index < leaderboard.length)`,
shift every later entry left by one (reassigning its `playerIndex`), pop, and
clear the removed player's index. -/
def removeFromLeaderboard (s : RewardsState) (index : Nat) : Option RewardsState :=
  if h : index < s.leaderboard.length then
    some { s with
             leaderboard := removeAt s.leaderboard index,
             playerIndex :=
               setIndex
                 (writeIndices s.playerIndex
                   (indexAssignments (s.leaderboard.drop (index + 1)) index))
                 (s.leaderboard.get ⟨index, h⟩).player 0 }
  else none

/-- Source function `submitScore(_player, _score)` at timestamp `ts` from caller `msgSender`. -/
def submitScore (s : RewardsState) (msgSender player : Address) (score ts : Nat) :
    Except RewardsError (RewardsState × List RewardsEvent) :=
  if msgSender ≠ s.backendValidator then .error .Unauthorized
  else if player = 0 then .error .InvalidPlayer
  else if score < s.minScoreThreshold then .error .ScoreTooLow
  else if s.playerIndex player = 0 then
    .ok (insertIntoLeaderboard s player score ts, [.ScoreSubmitted player score ts])
  else if h : s.playerIndex player - 1 < s.leaderboard.length then
    if score ≤ (s.leaderboard.get ⟨s.playerIndex player - 1, h⟩).score then
      .error .ScoreNotImproved
    else
      match removeFromLeaderboard s (s.playerIndex player - 1) with
      | some s1 => .ok (insertIntoLeaderboard s1 player score ts, [.ScoreSubmitted player score ts])
      | none => .error .IndexOutOfBounds
  else .error .IndexOutOfBounds

/-- Source value `poolForCalculation`: the snapshot when one is set, else the live pool. -/
def poolForCalculation (s : RewardsState) : Nat :=
  if 0 < s.prizePoolSnapshot then s.prizePoolSnapshot else s.prizePool

/-- Source function `_countEligiblePlayers()`: number of leaderboard entries whose score meets
the minimum threshold (claimed or not, any rank). -/
def countEligiblePlayers (s : RewardsState) : Nat :=
  (s.leaderboard.filter (fun e => s.minScoreThreshold ≤ e.score)).length

/-- Source function `_calculateReward(_index)`. -/
def calculateReward (s : RewardsState) (index : Nat) : Nat :=
  if poolForCalculation s = 0 then 0
  else if index + 1 = 1 then poolForCalculation s * FIRST_PLACE_PERCENT / 10000
  else if index + 1 = 2 then poolForCalculation s * SECOND_PLACE_PERCENT / 10000
  else if index + 1 = 3 then poolForCalculation s * THIRD_PLACE_PERCENT / 10000
  else if 4 ≤ index + 1 ∧ index + 1 ≤ 10 then
    if (if 10 ≤ s.leaderboard.length then 7
        else if 4 ≤ s.leaderboard.length then s.leaderboard.length - 3 else 0) = 0 then 0
    else poolForCalculation s * PLACES_4_10_PERCENT / 10000 /
      (if 10 ≤ s.leaderboard.length then 7
       else if 4 ≤ s.leaderboard.length then s.leaderboard.length - 3 else 0)
  else
    if countEligiblePlayers s = 0 then 0
    else poolForCalculation s * PARTICIPATION_PERCENT / 10000 / countEligiblePlayers s

/-- State after the `if (prizePoolSnapshot == 0) prizePoolSnapshot = prizePool;`
step at the start of a claim's reward computation. -/
def captureSnapshot (s : RewardsState) : RewardsState :=
  if s.prizePoolSnapshot = 0 then { s with prizePoolSnapshot := s.prizePool } else s

/-- Source function `claimRewards(_player)`.  The snapshot capture happens before the reward
computation; if any later `require` fails the whole call (including the
capture) reverts, which the `Except` result models. -/
def claimRewards (s : RewardsState) (player : Address) :
    Except RewardsError (RewardsState × List RewardsEvent) :=
  if player = 0 then .error .InvalidPlayer
  else if s.hasClaimed player then .error .AlreadyClaimed
  else if s.playerIndex player = 0 then .error .NotRanked
  else if h : s.playerIndex player - 1 < s.leaderboard.length then
    if (s.leaderboard.get ⟨s.playerIndex player - 1, h⟩).player ≠ player then
      .error .PlayerMismatch
    else if (s.leaderboard.get ⟨s.playerIndex player - 1, h⟩).claimed then
      .error .EntryAlreadyClaimed
    else if (s.leaderboard.get ⟨s.playerIndex player - 1, h⟩).score < s.minScoreThreshold then
      .error .ScoreTooLow
    else if calculateReward (captureSnapshot s) (s.playerIndex player - 1) = 0 then
      .error .NoReward
    else if (captureSnapshot s).prizePool <
        calculateReward (captureSnapshot s) (s.playerIndex player - 1) then
      .error .InsufficientPool
    else if (captureSnapshot s).engineBalance <
        calculateReward (captureSnapshot s) (s.playerIndex player - 1) then
      .error .TransferFailed
    else
      .ok ({ captureSnapshot s with
               leaderboard :=
                 (captureSnapshot s).leaderboard.set (s.playerIndex player - 1)
                   { s.leaderboard.get ⟨s.playerIndex player - 1, h⟩ with claimed := true },
               hasClaimed := setClaimed (captureSnapshot s).hasClaimed player,
               prizePool := (captureSnapshot s).prizePool -
                 calculateReward (captureSnapshot s) (s.playerIndex player - 1),
               engineBalance := (captureSnapshot s).engineBalance -
                 calculateReward (captureSnapshot s) (s.playerIndex player - 1) },
           [.RewardsDistributed player
              (calculateReward (captureSnapshot s) (s.playerIndex player - 1))
              (s.playerIndex player - 1 + 1)])
  else .error .InvalidIndex

/-- Source function `fundPrizePool(_amount)` from caller `msgSender` (`onlyOwner`): add to the
pool, clear the snapshot when the refilled pool reaches it, then mint the
amount to the engine's own custody (GamePassToken.mint, max-supply capped). -/
def fundPrizePool (s : RewardsState) (msgSender : Address) (amount : Nat) :
    Except RewardsError (RewardsState × List RewardsEvent) :=
  if msgSender ≠ s.owner then .error .Unauthorized
  else if amount = 0 then .error .InvalidAmount
  else if MAX_SUPPLY < s.tokenTotalSupply + amount then .error .ExceedsMaxSupply
  else
    .ok ({ s with
             prizePool := s.prizePool + amount,
             prizePoolSnapshot :=
               if 0 < s.prizePoolSnapshot ∧ s.prizePoolSnapshot ≤ s.prizePool + amount then 0
               else s.prizePoolSnapshot,
             tokenTotalSupply := s.tokenTotalSupply + amount,
             engineBalance := s.engineBalance + amount },
         [.PrizePoolFunded amount (s.prizePool + amount)])

/-- Source function `setBackendValidator(_backendValidator)` (`onlyOwner`). -/
def setBackendValidator (s : RewardsState) (msgSender newValidator : Address) :
    Except RewardsError (RewardsState × List RewardsEvent) :=
  if msgSender ≠ s.owner then .error .Unauthorized
  else if newValidator = 0 then .error .InvalidAddress
  else .ok ({ s with backendValidator := newValidator }, [])

/-- Source function `setMinScoreThreshold(_minScoreThreshold)` (`onlyOwner`, no other check). -/
def setMinScoreThreshold (s : RewardsState) (msgSender : Address) (newThreshold : Nat) :
    Except RewardsError (RewardsState × List RewardsEvent) :=
  if msgSender ≠ s.owner then .error .Unauthorized
  else .ok ({ s with minScoreThreshold := newThreshold }, [])

/-- One external call to the contract. -/
inductive Op where
  | submit (msgSender player : Address) (score ts : Nat)
  | claim (player : Address)
  | fund (msgSender : Address) (amount : Nat)
  | setValidator (msgSender newValidator : Address)
  | setThreshold (msgSender : Address) (newThreshold : Nat)
deriving DecidableEq, Repr

def exec (s : RewardsState) : Op → Except RewardsError (RewardsState × List RewardsEvent)
  | .submit m p sc ts => submitScore s m p sc ts
  | .claim p => claimRewards s p
  | .fund m a => fundPrizePool s m a
  | .setValidator m v => setBackendValidator s m v
  | .setThreshold m t => setMinScoreThreshold s m t

/-- Transactional semantics: a failed call leaves the state untouched. -/
def run (s : RewardsState) (op : Op) : RewardsState :=
  match exec s op with
  | .ok r => r.1
  | .error _ => s

def runAll (s : RewardsState) (ops : List Op) : RewardsState :=
  ops.foldl run s

/-- The constructor state: empty leaderboard and pool; the token collaborator
starts with half the max supply already minted to the treasury. -/
def initState (owner backendValidator minScoreThreshold : Nat) : RewardsState :=
  { owner := owner
    backendValidator := backendValidator
    prizePool := 0
    prizePoolSnapshot := 0
    minScoreThreshold := minScoreThreshold
    leaderboard := []
    playerIndex := fun _ => 0
    hasClaimed := fun _ => false
    engineBalance := 0
    tokenTotalSupply := MAX_SUPPLY / 2 }

/-- States reachable from a freshly constructed contract by any sequence of
external calls. -/
inductive Reachable : RewardsState → Prop
  | init (owner validator threshold : Nat) (hv : validator ≠ 0) :
      Reachable (initState owner validator threshold)
  | step (s : RewardsState) (op : Op) (hs : Reachable s) : Reachable (run s op)

def playersOf (lb : List LeaderboardEntry) : List Address :=
  lb.map (fun e => e.player)

def scoresOf (lb : List LeaderboardEntry) : List Nat :=
  lb.map (fun e => e.score)

/-- One-indexed position of the first occurrence of a player, 0 when absent:
the value `playerIndex` is supposed to hold for every player. -/
def canonIndex : List Address → Address → Nat
  | [], _ => 0
  | a :: rest, p =>
    if a = p then 1
    else if canonIndex rest p = 0 then 0 else canonIndex rest p + 1

/-- The state invariant: sorted descending scores, bounded length, distinct
players, and `playerIndex` coherent with positions. -/
def Inv (s : RewardsState) : Prop :=
  (scoresOf s.leaderboard).Pairwise (fun a b => b ≤ a) ∧
  s.leaderboard.length ≤ MAX_LEADERBOARD_SIZE ∧
  (playersOf s.leaderboard).Nodup ∧
  ∀ q, s.playerIndex q = canonIndex (playersOf s.leaderboard) q

/-- Amount paid out by an event. -/
def eventPayout : RewardsEvent → Nat
  | .RewardsDistributed _ amount _ => amount
  | _ => 0

/-- Instrumented execution accumulating the total paid out by successful
claims. -/
def runPaid (sp : RewardsState × Nat) (op : Op) : RewardsState × Nat :=
  match exec sp.1 op with
  | .ok r => (r.1, sp.2 + (r.2.map eventPayout).sum)
  | .error _ => sp

def runPaidAll (sp : RewardsState × Nat) (ops : List Op) : RewardsState × Nat :=
  ops.foldl runPaid sp

def isFund : Op → Bool
  | .fund _ _ => true
  | _ => false

/-- Snapshot value observed before each call and after the last one. -/
def snapshotTrace (s : RewardsState) : List Op → List Nat
  | [] => [s.prizePoolSnapshot]
  | op :: rest => s.prizePoolSnapshot :: snapshotTrace (run s op) rest

/-- Reward tier table exactly as the specification words it: rank 1 gets 40%,
rank 2 gets 25%, rank 3 gets 15%, ranks 4 to 10 each get 10% split evenly
among however many of positions 4 to 10 are filled (0 when fewer than 4
entries exist), and every other rank gets 10% split evenly among the count of
all entries with score at or above the minimum threshold; a zero pool pays 0
everywhere, and integer division truncates. -/
def specTierReward (pool : Nat) (lb : List LeaderboardEntry) (threshold : Nat) (i : Nat) : Nat :=
  if pool = 0 then 0
  else if i + 1 = 1 then pool * 40 / 100
  else if i + 1 = 2 then pool * 25 / 100
  else if i + 1 = 3 then pool * 15 / 100
  else if 4 ≤ i + 1 ∧ i + 1 ≤ 10 then
    if lb.length < 4 then 0
    else pool * 10 / 100 / (min lb.length 10 - 3)
  else
    if (lb.filter (fun e => threshold ≤ e.score)).length = 0 then 0
    else pool * 10 / 100 / (lb.filter (fun e => threshold ≤ e.score)).length

/-- Accounting invariant tying the total paid out so far to the snapshot, for
traces with no mid-epoch refill. -/
def EpochBound (sp : RewardsState × Nat) : Prop :=
  (sp.1.prizePoolSnapshot = 0 → sp.2 = 0) ∧
  (sp.1.prizePoolSnapshot ≠ 0 → sp.2 + sp.1.prizePool ≤ sp.1.prizePoolSnapshot)

/-- A trace in which three different players occupy rank 1 one after the
other and each claims the rank-1 share of the same uncleared snapshot, with a
mid-epoch refill that stays below the snapshot. -/
def epochOps : List Op :=
  [Op.fund 1 1000, Op.submit 2 10 100 0, Op.claim 10,
   Op.submit 2 11 200 0, Op.claim 11,
   Op.submit 2 12 300 0, Op.fund 1 300, Op.claim 12]

/-- One hundred submissions with strictly descending scores 1000, 999, ..., 901. -/
def board100Ops : List Op :=
  (List.range 100).map (fun k => Op.submit 2 (10 + k) (1000 - k) 0)

/-- A full board holding scores 1000 down to 901. -/
def board100 : RewardsState := runAll (initState 1 2 0) board100Ops

/-- The 101st submission of Scenario B: score 900, below every stored score. -/
def scenarioBState : RewardsState := run board100 (Op.submit 2 110 900 0)

/-- Scenario D state: ten ranked players, live pool 1000, no snapshot. -/
def scenDState : RewardsState :=
  { owner := 1
    backendValidator := 2
    prizePool := 1000
    prizePoolSnapshot := 0
    minScoreThreshold := 10
    leaderboard := (List.range 10).map (fun k => ⟨20 + k, 1000 - k, 0, false⟩)
    playerIndex := fun a => if 20 ≤ a ∧ a < 30 then a - 20 + 1 else 0
    hasClaimed := fun _ => false
    engineBalance := 1000
    tokenTotalSupply := 0 }

/-- One ranked player (score 50), empty pool. -/
def oneEntryBase : RewardsState := runAll (initState 1 2 0) [Op.submit 2 10 50 0]

/-- One ranked player (score 5), zero pool and no snapshot. -/
def zeroPoolBase : RewardsState := runAll (initState 1 2 0) [Op.submit 2 10 5 0]

/-- Two ranked players (scores 80 and 50), for the threshold-raise scenario. -/
def twoEntryBase : RewardsState :=
  runAll (initState 1 2 0) [Op.submit 2 10 50 0, Op.submit 2 11 80 0]

/-- Funded pool of 1000 with a single ranked player about to claim. -/
def fundedOneClaimBase : RewardsState :=
  runAll (initState 1 2 0) [Op.fund 1 1000, Op.submit 2 10 100 0]

/-! ### Basic lemmas about the position bookkeeping -/

lemma playersOf_nil : playersOf [] = [] := rfl

lemma playersOf_cons (e : LeaderboardEntry) (l : List LeaderboardEntry) :
    playersOf (e :: l) = e.player :: playersOf l := rfl

lemma playersOf_append (l1 l2 : List LeaderboardEntry) :
    playersOf (l1 ++ l2) = playersOf l1 ++ playersOf l2 :=
  List.map_append _ _ _

lemma playersOf_length (l : List LeaderboardEntry) :
    (playersOf l).length = l.length :=
  List.length_map _ _

lemma scoresOf_length (l : List LeaderboardEntry) :
    (scoresOf l).length = l.length :=
  List.length_map _ _

lemma canonIndex_cons (a : Address) (l : List Address) (p : Address) :
    canonIndex (a :: l) p =
      if a = p then 1 else if canonIndex l p = 0 then 0 else canonIndex l p + 1 := rfl

lemma canonIndex_of_not_mem {l : List Address} {p : Address} (h : p ∉ l) :
    canonIndex l p = 0 := by
  induction l with
  | nil => rfl
  | cons a l ih =>
    rw [canonIndex_cons]
    have ha : a ≠ p := fun hap => h (hap ▸ List.mem_cons_self a l)
    have hl : p ∉ l := fun hm => h (List.mem_cons_of_mem a hm)
    rw [if_neg ha, ih hl, if_pos rfl]

lemma not_mem_of_canonIndex_eq_zero {l : List Address} {p : Address}
    (h : canonIndex l p = 0) : p ∉ l := by
  induction l with
  | nil => simp
  | cons a l ih =>
    rw [canonIndex_cons] at h
    by_cases ha : a = p
    · rw [if_pos ha] at h; exact absurd h one_ne_zero
    · rw [if_neg ha] at h
      by_cases hz : canonIndex l p = 0
      · intro hm
        rcases List.mem_cons.mp hm with h1 | h2
        · exact ha h1.symm
        · exact ih hz h2
      · rw [if_neg hz] at h; omega

lemma canonIndex_eq_zero_iff (l : List Address) (p : Address) :
    canonIndex l p = 0 ↔ p ∉ l :=
  ⟨not_mem_of_canonIndex_eq_zero, canonIndex_of_not_mem⟩

lemma canonIndex_le_length (l : List Address) (p : Address) :
    canonIndex l p ≤ l.length := by
  induction l with
  | nil => simp [canonIndex]
  | cons a l ih =>
    rw [canonIndex_cons, List.length_cons]
    split_ifs <;> omega

lemma canonIndex_get {l : List Address} {p : Address} {k : Nat}
    (h : canonIndex l p = k + 1) : ∃ hk : k < l.length, l.get ⟨k, hk⟩ = p := by
  induction l generalizing k with
  | nil => simp [canonIndex] at h
  | cons a l ih =>
    rw [canonIndex_cons] at h
    by_cases ha : a = p
    · rw [if_pos ha] at h
      have : k = 0 := by omega
      subst this
      exact ⟨Nat.succ_pos _, ha⟩
    · rw [if_neg ha] at h
      by_cases hz : canonIndex l p = 0
      · rw [if_pos hz] at h; omega
      · rw [if_neg hz] at h
        obtain ⟨k0, hk0⟩ : ∃ k0, canonIndex l p = k0 + 1 := ⟨canonIndex l p - 1, by omega⟩
        obtain ⟨hlt, hget⟩ := ih hk0
        have hk : k = k0 + 1 := by omega
        subst hk
        exact ⟨by simpa using Nat.succ_lt_succ hlt, hget⟩

lemma canonIndex_get_self {l : List Address} (hnd : l.Nodup) (i : Nat)
    (hi : i < l.length) : canonIndex l (l.get ⟨i, hi⟩) = i + 1 := by
  induction l generalizing i with
  | nil => simp at hi
  | cons a l ih =>
    rcases List.nodup_cons.mp hnd with ⟨hna, hnd'⟩
    cases i with
    | zero => simp [canonIndex_cons]
    | succ j =>
      have hj : j < l.length := by simpa using hi
      have hget : (a :: l).get ⟨j + 1, hi⟩ = l.get ⟨j, hj⟩ := rfl
      rw [hget, canonIndex_cons]
      have ha : a ≠ l.get ⟨j, hj⟩ := by
        intro hEq
        exact hna (hEq ▸ List.get_mem l j hj)
      rw [if_neg ha, ih hnd' j hj, if_neg (by omega)]

lemma canonIndex_append (l1 l2 : List Address) (p : Address) :
    canonIndex (l1 ++ l2) p =
      if canonIndex l1 p = 0 then
        (if canonIndex l2 p = 0 then 0 else l1.length + canonIndex l2 p)
      else canonIndex l1 p := by
  induction l1 with
  | nil =>
    have h0 : canonIndex [] p = 0 := rfl
    rw [List.nil_append, h0, List.length_nil, if_pos rfl]
    split_ifs with hz
    · rw [hz]
    · rw [Nat.zero_add]
  | cons a l1 ih =>
    rw [List.cons_append, canonIndex_cons, canonIndex_cons, ih, List.length_cons]
    by_cases ha : a = p
    · by_cases h2 : canonIndex l2 p = 0 <;> simp [ha, h2]
    · by_cases h1 : canonIndex l1 p = 0
      · by_cases h2 : canonIndex l2 p = 0
        · simp [ha, h1, h2]
        · have hne : ¬(l1.length + canonIndex l2 p = 0) := by omega
          simp [ha, h1, h2, hne]
          omega
      · simp [ha, h1]

lemma writeIndices_indexAssignments (f : Address → Nat) (l : List LeaderboardEntry)
    (n : Nat) (hnd : (playersOf l).Nodup) (q : Address) :
    writeIndices f (indexAssignments l n) q =
      if canonIndex (playersOf l) q = 0 then f q
      else n + canonIndex (playersOf l) q := by
  induction l generalizing f n with
  | nil => simp [indexAssignments, writeIndices, playersOf, canonIndex]
  | cons e rest ih =>
    rw [playersOf_cons] at hnd ⊢
    rcases List.nodup_cons.mp hnd with ⟨hne, hnd'⟩
    rw [indexAssignments, writeIndices, ih _ _ hnd', canonIndex_cons]
    by_cases hq : e.player = q
    · have hz : canonIndex (playersOf rest) q = 0 :=
        canonIndex_of_not_mem (fun hm => hne (hq ▸ hm))
      rw [hz, if_pos rfl, if_pos hq, if_neg one_ne_zero]
      simp [setIndex, hq]
    · rw [if_neg hq]
      by_cases hz : canonIndex (playersOf rest) q = 0
      · rw [if_pos hz, hz, if_pos rfl, if_pos rfl]
        simp [setIndex, Ne.symm hq]
      · rw [if_neg hz, if_neg hz, if_neg (by omega)]
        omega

lemma findInsertIndex_le (score : Nat) (l : List LeaderboardEntry) :
    findInsertIndex score l ≤ l.length := by
  induction l with
  | nil => simp [findInsertIndex]
  | cons e rest ih =>
    rw [findInsertIndex]
    by_cases h : e.score < score
    · simp [h]
    · rw [if_neg h]; simpa using ih

lemma findInsertIndex_sound (score : Nat) (l : List LeaderboardEntry) :
    (∀ j (hj : j < l.length), j < findInsertIndex score l →
        score ≤ (l.get ⟨j, hj⟩).score) ∧
    (∀ h : findInsertIndex score l < l.length,
        (l.get ⟨findInsertIndex score l, h⟩).score < score) := by
  induction l with
  | nil => exact ⟨fun j hj _ => by simp at hj, fun h => by simp [findInsertIndex] at h⟩
  | cons e rest ih =>
    rw [findInsertIndex]
    by_cases h : e.score < score
    · rw [if_pos h]
      exact ⟨fun j hj hlt => by omega, fun _ => h⟩
    · rw [if_neg h]
      refine ⟨fun j hj hlt => ?_, fun hlen => ?_⟩
      · cases j with
        | zero => exact Nat.le_of_not_lt h
        | succ k =>
          have hk : k < rest.length := by simpa using hj
          exact ih.1 k hk (by omega)
      · have hlen' : findInsertIndex score rest < rest.length := by simpa using hlen
        exact ih.2 hlen'

lemma findInsertIndex_of_all_ge {score : Nat} {l : List LeaderboardEntry}
    (h : ∀ e ∈ l, score ≤ e.score) : findInsertIndex score l = l.length := by
  induction l with
  | nil => rfl
  | cons e rest ih =>
    rw [findInsertIndex, if_neg (Nat.not_lt.mpr (h e (List.mem_cons_self e rest)))]
    rw [ih (fun x hx => h x (List.mem_cons_of_mem e hx))]
    rfl

lemma getLastD_decomp (l : List LeaderboardEntry) (d : LeaderboardEntry) :
    l = [] ∨ l.dropLast ++ [l.getLastD d] = l := by
  induction l generalizing d with
  | nil => exact Or.inl rfl
  | cons a l ih =>
    right
    cases l with
    | nil => rfl
    | cons b t =>
      rcases ih a with h | h
      · exact absurd h (by simp)
      · show (a :: (b :: t).dropLast) ++ [(b :: t).getLastD a] = a :: b :: t
        rw [List.cons_append, h]

lemma getLastD_concat (l : List LeaderboardEntry) (a d : LeaderboardEntry) :
    (l ++ [a]).getLastD d = a :=
  List.getLastD_concat d a l

lemma insertAt_length (l : List LeaderboardEntry) (i : Nat) (e : LeaderboardEntry)
    (h : i ≤ l.length) : (insertAt l i e).length = l.length + 1 := by
  simp [insertAt, List.length_append, List.length_take, List.length_drop]
  omega

lemma insertAt_ne_nil (l : List LeaderboardEntry) (i : Nat) (e : LeaderboardEntry) :
    insertAt l i e ≠ [] := by
  simp [insertAt]

lemma playersOf_insertAt (l : List LeaderboardEntry) (i : Nat) (e : LeaderboardEntry) :
    playersOf (insertAt l i e) =
      (playersOf l).take i ++ e.player :: (playersOf l).drop i := by
  simp [insertAt, playersOf, List.map_append, List.map_take, List.map_drop]

lemma scoresOf_insertAt (l : List LeaderboardEntry) (i : Nat) (e : LeaderboardEntry) :
    scoresOf (insertAt l i e) =
      (scoresOf l).take i ++ e.score :: (scoresOf l).drop i := by
  simp [insertAt, scoresOf, List.map_append, List.map_take, List.map_drop]

lemma playersOf_removeAt (l : List LeaderboardEntry) (i : Nat) :
    playersOf (removeAt l i) = (playersOf l).take i ++ (playersOf l).drop (i + 1) := by
  simp [removeAt, playersOf, List.map_append, List.map_take, List.map_drop]

lemma removeAt_length (l : List LeaderboardEntry) (i : Nat) (h : i < l.length) :
    (removeAt l i).length = l.length - 1 := by
  simp [removeAt, List.length_append, List.length_take, List.length_drop]
  omega

lemma removeAt_sublist (l : List LeaderboardEntry) (i : Nat) :
    (removeAt l i).Sublist l := by
  have h1 : (l.drop (i + 1)).Sublist (l.drop i) := by
    rw [← List.drop_drop 1 i l]
    exact List.drop_sublist 1 (l.drop i)
  have h2 := List.Sublist.append_left h1 (l.take i)
  rw [List.take_append_drop] at h2
  exact h2

lemma take_get_drop {α : Type} (l : List α) (i : Nat) (h : i < l.length) :
    l.take i ++ l.get ⟨i, h⟩ :: l.drop (i + 1) = l := by
  rw [← List.drop_eq_get_cons h, List.take_append_drop]

lemma nodup_playersOf_insertAt {s : List LeaderboardEntry} {p : Address}
    (hnd : (playersOf s).Nodup) (hp : p ∉ playersOf s) (i : Nat)
    (e : LeaderboardEntry) (he : e.player = p) :
    (playersOf (insertAt s i e)).Nodup := by
  rw [playersOf_insertAt, he]
  rw [List.nodup_middle]
  refine List.nodup_cons.mpr ⟨?_, ?_⟩
  · intro hm
    rcases List.mem_append.mp hm with h1 | h1
    · exact hp (List.take_subset _ _ h1)
    · exact hp (List.drop_subset _ _ h1)
  · rw [List.take_append_drop]
    exact hnd

/-- Value of the shift-loop `playerIndex` reassignments at every address, in
terms of first-occurrence positions. -/
lemma insert_playerIndex_spec (s : RewardsState) (p : Address) (sc ts : Nat)
    (hnd : (playersOf s.leaderboard).Nodup)
    (hco : ∀ q, s.playerIndex q = canonIndex (playersOf s.leaderboard) q)
    (hp : p ∉ playersOf s.leaderboard) (q : Address) :
    setIndex
        (writeIndices s.playerIndex
          (indexAssignments (s.leaderboard.drop (findInsertIndex sc s.leaderboard))
            (findInsertIndex sc s.leaderboard + 1)))
        p (findInsertIndex sc s.leaderboard + 1) q =
      canonIndex
        (playersOf (insertAt s.leaderboard (findInsertIndex sc s.leaderboard) ⟨p, sc, ts, false⟩))
        q := by
  set lb := s.leaderboard with hlb
  set pl := playersOf lb with hpl
  set idx := findInsertIndex sc lb with hidxdef
  have hidx : idx ≤ lb.length := findInsertIndex_le sc lb
  have hplen : pl.length = lb.length := playersOf_length lb
  have hpldrop : playersOf (lb.drop idx) = pl.drop idx := by
    rw [hpl, playersOf, playersOf, List.map_drop]
  have hnddrop : (playersOf (lb.drop idx)).Nodup := by
    rw [hpldrop]
    exact List.Nodup.sublist (List.drop_sublist idx pl) hnd
  have htake0 : canonIndex (pl.take idx) p = 0 :=
    canonIndex_of_not_mem (fun hm => hp (List.take_subset _ _ hm))
  have hdrop0 : canonIndex (pl.drop idx) p = 0 :=
    canonIndex_of_not_mem (fun hm => hp (List.drop_subset _ _ hm))
  have htklen : (pl.take idx).length = idx := by
    rw [List.length_take]
    omega
  rw [playersOf_insertAt]
  show setIndex _ p (idx + 1) q =
    canonIndex (pl.take idx ++ LeaderboardEntry.player ⟨p, sc, ts, false⟩ :: pl.drop idx) q
  have hply : LeaderboardEntry.player ⟨p, sc, ts, false⟩ = p := rfl
  rw [hply, canonIndex_append, htklen]
  by_cases hq : q = p
  · subst hq
    rw [htake0, if_pos rfl, canonIndex_cons, if_pos rfl, if_neg one_ne_zero]
    simp [setIndex]
  · have hsi : setIndex
        (writeIndices s.playerIndex (indexAssignments (lb.drop idx) (idx + 1)))
        p (idx + 1) q =
        writeIndices s.playerIndex (indexAssignments (lb.drop idx) (idx + 1)) q := by
      simp [setIndex, hq]
    rw [hsi, writeIndices_indexAssignments _ _ _ hnddrop q, hpldrop]
    have hcons : canonIndex (p :: pl.drop idx) q =
        if canonIndex (pl.drop idx) q = 0 then 0 else canonIndex (pl.drop idx) q + 1 := by
      rw [canonIndex_cons, if_neg (fun h => hq h.symm)]
    rw [hcons]
    have hpi : s.playerIndex q = canonIndex pl q := hco q
    have hdecomp : canonIndex pl q =
        if canonIndex (pl.take idx) q = 0 then
          (if canonIndex (pl.drop idx) q = 0 then 0
           else (pl.take idx).length + canonIndex (pl.drop idx) q)
        else canonIndex (pl.take idx) q := by
      conv_lhs => rw [← List.take_append_drop idx pl]
      exact canonIndex_append _ _ _
    by_cases hdz : canonIndex (pl.drop idx) q = 0
    · rw [if_pos hdz, if_pos hdz, hpi, hdecomp, if_pos hdz]
      simp
    · have hqdrop : q ∈ pl.drop idx := by
        by_contra hqd
        exact hdz (canonIndex_of_not_mem hqd)
      have hqtake : canonIndex (pl.take idx) q = 0 := by
        apply canonIndex_of_not_mem
        intro hqt
        have hndpl : (pl.take idx ++ pl.drop idx).Nodup := by
          rw [List.take_append_drop]; exact hnd
        exact (List.disjoint_of_nodup_append hndpl) hqt hqdrop
      rw [if_neg hdz, if_neg hdz, hqtake, if_pos rfl, if_neg (by omega)]
      omega

lemma scoresOf_cons (e : LeaderboardEntry) (l : List LeaderboardEntry) :
    scoresOf (e :: l) = e.score :: scoresOf l := rfl

lemma sorted_insertAt (l : List LeaderboardEntry) (p : Address) (sc ts : Nat)
    (hs : (scoresOf l).Pairwise (fun a b => b ≤ a)) :
    (scoresOf (insertAt l (findInsertIndex sc l) ⟨p, sc, ts, false⟩)).Pairwise
      (fun a b => b ≤ a) := by
  have hsc0 : (⟨p, sc, ts, false⟩ : LeaderboardEntry).score = sc := rfl
  induction l with
  | nil => simp [insertAt, findInsertIndex, scoresOf]
  | cons hd tl ih =>
    rw [scoresOf_cons] at hs
    rcases List.pairwise_cons.mp hs with ⟨hhd, htl⟩
    rw [findInsertIndex]
    by_cases hlt : hd.score < sc
    · rw [if_pos hlt]
      have h0 : insertAt (hd :: tl) 0 ⟨p, sc, ts, false⟩ =
          ⟨p, sc, ts, false⟩ :: hd :: tl := by
        simp [insertAt]
      rw [h0, scoresOf_cons, hsc0]
      refine List.pairwise_cons.mpr ⟨?_, hs⟩
      intro x hx
      rw [scoresOf_cons] at hx
      rcases List.mem_cons.mp hx with h1 | h2
      · subst h1; omega
      · have := hhd x h2; omega
    · rw [if_neg hlt]
      have heq : insertAt (hd :: tl) (findInsertIndex sc tl + 1) ⟨p, sc, ts, false⟩ =
          hd :: insertAt tl (findInsertIndex sc tl) ⟨p, sc, ts, false⟩ := by
        simp only [insertAt, List.take_succ_cons, List.drop_succ_cons, List.cons_append]
      rw [heq, scoresOf_cons]
      refine List.pairwise_cons.mpr ⟨?_, ih htl⟩
      intro x hx
      rw [scoresOf_insertAt, hsc0] at hx
      rcases List.mem_append.mp hx with h1 | h1
      · exact hhd x (List.take_subset _ _ h1)
      · rcases List.mem_cons.mp h1 with h2 | h2
        · subst h2; omega
        · exact hhd x (List.drop_subset _ _ h2)

lemma insertIntoLeaderboard_leaderboard (s : RewardsState) (p : Address) (sc ts : Nat) :
    (insertIntoLeaderboard s p sc ts).leaderboard =
      if MAX_LEADERBOARD_SIZE <
          (insertAt s.leaderboard (findInsertIndex sc s.leaderboard) ⟨p, sc, ts, false⟩).length
      then (insertAt s.leaderboard (findInsertIndex sc s.leaderboard) ⟨p, sc, ts, false⟩).dropLast
      else insertAt s.leaderboard (findInsertIndex sc s.leaderboard) ⟨p, sc, ts, false⟩ := by
  by_cases hc : MAX_LEADERBOARD_SIZE <
      (insertAt s.leaderboard (findInsertIndex sc s.leaderboard) ⟨p, sc, ts, false⟩).length
  · simp only [insertIntoLeaderboard, if_pos hc]
  · simp only [insertIntoLeaderboard, if_neg hc]

lemma insertIntoLeaderboard_frame (s : RewardsState) (p : Address) (sc ts : Nat) :
    (insertIntoLeaderboard s p sc ts).prizePool = s.prizePool ∧
    (insertIntoLeaderboard s p sc ts).prizePoolSnapshot = s.prizePoolSnapshot ∧
    (insertIntoLeaderboard s p sc ts).minScoreThreshold = s.minScoreThreshold ∧
    (insertIntoLeaderboard s p sc ts).hasClaimed = s.hasClaimed ∧
    (insertIntoLeaderboard s p sc ts).owner = s.owner ∧
    (insertIntoLeaderboard s p sc ts).backendValidator = s.backendValidator ∧
    (insertIntoLeaderboard s p sc ts).engineBalance = s.engineBalance ∧
    (insertIntoLeaderboard s p sc ts).tokenTotalSupply = s.tokenTotalSupply := by
  simp only [insertIntoLeaderboard]
  split <;> exact ⟨rfl, rfl, rfl, rfl, rfl, rfl, rfl, rfl⟩

lemma insertIntoLeaderboard_playerIndex (s : RewardsState) (p : Address) (sc ts : Nat)
    (hnd : (playersOf s.leaderboard).Nodup)
    (hco : ∀ q, s.playerIndex q = canonIndex (playersOf s.leaderboard) q)
    (hp : p ∉ playersOf s.leaderboard) (q : Address) :
    (insertIntoLeaderboard s p sc ts).playerIndex q =
      canonIndex (playersOf (insertIntoLeaderboard s p sc ts).leaderboard) q := by
  have hmain := insert_playerIndex_spec s p sc ts hnd hco hp
  have hnd1 : (playersOf
      (insertAt s.leaderboard (findInsertIndex sc s.leaderboard) ⟨p, sc, ts, false⟩)).Nodup :=
    nodup_playersOf_insertAt hnd hp _ _ rfl
  by_cases hc : MAX_LEADERBOARD_SIZE <
      (insertAt s.leaderboard (findInsertIndex sc s.leaderboard) ⟨p, sc, ts, false⟩).length
  · have hlb : (insertIntoLeaderboard s p sc ts).leaderboard =
        (insertAt s.leaderboard (findInsertIndex sc s.leaderboard) ⟨p, sc, ts, false⟩).dropLast := by
      rw [insertIntoLeaderboard_leaderboard, if_pos hc]
    have hpi : (insertIntoLeaderboard s p sc ts).playerIndex =
        setIndex
          (setIndex
            (writeIndices s.playerIndex
              (indexAssignments (s.leaderboard.drop (findInsertIndex sc s.leaderboard))
                (findInsertIndex sc s.leaderboard + 1)))
            p (findInsertIndex sc s.leaderboard + 1))
          ((insertAt s.leaderboard (findInsertIndex sc s.leaderboard)
              ⟨p, sc, ts, false⟩).getLastD ⟨p, sc, ts, false⟩).player 0 := by
      simp only [insertIntoLeaderboard, if_pos hc]
    set lb1 := insertAt s.leaderboard (findInsertIndex sc s.leaderboard) ⟨p, sc, ts, false⟩
      with hlb1
    set lastP := (lb1.getLastD ⟨p, sc, ts, false⟩).player with hlastP
    have hdec : lb1.dropLast ++ [lb1.getLastD ⟨p, sc, ts, false⟩] = lb1 := by
      rcases getLastD_decomp lb1 ⟨p, sc, ts, false⟩ with hngl | hok
      · exact absurd hngl (insertAt_ne_nil _ _ _)
      · exact hok
    have hpdec : playersOf lb1.dropLast ++ [lastP] = playersOf lb1 := by
      conv_rhs => rw [← hdec]
      rw [playersOf_append, playersOf_cons, playersOf_nil]
    have hnotmem : lastP ∉ playersOf lb1.dropLast := by
      intro hm
      have hnd2 : (playersOf lb1.dropLast ++ [lastP]).Nodup := by
        rw [hpdec]; exact hnd1
      exact (List.disjoint_of_nodup_append hnd2) hm (List.mem_singleton_self lastP)
    rw [hpi, hlb]
    by_cases hq : q = lastP
    · subst hq
      rw [canonIndex_of_not_mem hnotmem]
      simp [setIndex]
    · have hskip : setIndex
          (setIndex
            (writeIndices s.playerIndex
              (indexAssignments (s.leaderboard.drop (findInsertIndex sc s.leaderboard))
                (findInsertIndex sc s.leaderboard + 1)))
            p (findInsertIndex sc s.leaderboard + 1)) lastP 0 q =
          setIndex
            (writeIndices s.playerIndex
              (indexAssignments (s.leaderboard.drop (findInsertIndex sc s.leaderboard))
                (findInsertIndex sc s.leaderboard + 1)))
            p (findInsertIndex sc s.leaderboard + 1) q := by
        simp [setIndex, hq]
      rw [hskip, hmain q]
      conv_lhs => rw [← hpdec]
      rw [canonIndex_append]
      have hone : canonIndex [lastP] q = 0 := by
        rw [canonIndex_cons, if_neg (fun h => hq h.symm)]
        rfl
      rw [hone]
      by_cases hA : canonIndex (playersOf lb1.dropLast) q = 0
      · rw [if_pos hA, if_pos rfl, hA]
      · rw [if_neg hA]
  · have hlb : (insertIntoLeaderboard s p sc ts).leaderboard =
        insertAt s.leaderboard (findInsertIndex sc s.leaderboard) ⟨p, sc, ts, false⟩ := by
      rw [insertIntoLeaderboard_leaderboard, if_neg hc]
    have hpi : (insertIntoLeaderboard s p sc ts).playerIndex =
        setIndex
          (writeIndices s.playerIndex
            (indexAssignments (s.leaderboard.drop (findInsertIndex sc s.leaderboard))
              (findInsertIndex sc s.leaderboard + 1)))
          p (findInsertIndex sc s.leaderboard + 1) := by
      simp only [insertIntoLeaderboard, if_neg hc]
    rw [hpi, hlb]
    exact hmain q

lemma insertIntoLeaderboard_inv (s : RewardsState) (p : Address) (sc ts : Nat)
    (hInv : Inv s) (hp : p ∉ playersOf s.leaderboard) :
    Inv (insertIntoLeaderboard s p sc ts) := by
  obtain ⟨hsorted, hlen, hnd, hco⟩ := hInv
  have hidx : findInsertIndex sc s.leaderboard ≤ s.leaderboard.length :=
    findInsertIndex_le sc s.leaderboard
  have hlen1 : (insertAt s.leaderboard (findInsertIndex sc s.leaderboard)
      ⟨p, sc, ts, false⟩).length = s.leaderboard.length + 1 :=
    insertAt_length _ _ _ hidx
  have hsorted1 := sorted_insertAt s.leaderboard p sc ts hsorted
  have hnd1 : (playersOf
      (insertAt s.leaderboard (findInsertIndex sc s.leaderboard) ⟨p, sc, ts, false⟩)).Nodup :=
    nodup_playersOf_insertAt hnd hp _ _ rfl
  have hlb := insertIntoLeaderboard_leaderboard s p sc ts
  refine ⟨?_, ?_, ?_, insertIntoLeaderboard_playerIndex s p sc ts hnd hco hp⟩
  · rw [hlb]
    split
    · exact List.Pairwise.sublist
        (List.Sublist.map _ (List.dropLast_sublist _)) hsorted1
    · exact hsorted1
  · rw [hlb]
    split
    · rw [List.length_dropLast]; omega
    · omega
  · rw [hlb]
    split
    · exact List.Nodup.sublist (List.Sublist.map _ (List.dropLast_sublist _)) hnd1
    · exact hnd1

lemma removeFromLeaderboard_some {s : RewardsState} {i : Nat} {s1 : RewardsState}
    (h : removeFromLeaderboard s i = some s1) :
    ∃ hi : i < s.leaderboard.length,
      s1 = { s with
               leaderboard := removeAt s.leaderboard i,
               playerIndex :=
                 setIndex
                   (writeIndices s.playerIndex
                     (indexAssignments (s.leaderboard.drop (i + 1)) i))
                   (s.leaderboard.get ⟨i, hi⟩).player 0 } := by
  by_cases hi : i < s.leaderboard.length
  · refine ⟨hi, ?_⟩
    unfold removeFromLeaderboard at h
    rw [dif_pos hi] at h
    injection h with h
    exact h.symm
  · unfold removeFromLeaderboard at h
    rw [dif_neg hi] at h
    exact absurd h (by simp)

lemma remove_playerIndex_spec (s : RewardsState) (i : Nat) (hi : i < s.leaderboard.length)
    (hnd : (playersOf s.leaderboard).Nodup)
    (hco : ∀ q, s.playerIndex q = canonIndex (playersOf s.leaderboard) q) (q : Address) :
    setIndex
        (writeIndices s.playerIndex (indexAssignments (s.leaderboard.drop (i + 1)) i))
        (s.leaderboard.get ⟨i, hi⟩).player 0 q =
      canonIndex (playersOf (removeAt s.leaderboard i)) q := by
  have hplen : (playersOf s.leaderboard).length = s.leaderboard.length :=
    playersOf_length s.leaderboard
  have hig : i < (playersOf s.leaderboard).length := by omega
  have hgetpl : (playersOf s.leaderboard).get ⟨i, hig⟩ =
      (s.leaderboard.get ⟨i, hi⟩).player := List.get_map _
  have hdecomp : (playersOf s.leaderboard).take i ++
      (s.leaderboard.get ⟨i, hi⟩).player :: (playersOf s.leaderboard).drop (i + 1) =
      playersOf s.leaderboard := by
    rw [← hgetpl]
    exact take_get_drop _ i hig
  have hpldrop : playersOf (s.leaderboard.drop (i + 1)) =
      (playersOf s.leaderboard).drop (i + 1) := by
    rw [playersOf, playersOf, List.map_drop]
  have hnddrop : (playersOf (s.leaderboard.drop (i + 1))).Nodup := by
    rw [hpldrop]
    exact List.Nodup.sublist (List.drop_sublist _ _) hnd
  have hndmid : ((s.leaderboard.get ⟨i, hi⟩).player ::
      ((playersOf s.leaderboard).take i ++ (playersOf s.leaderboard).drop (i + 1))).Nodup := by
    rw [← List.nodup_middle, hdecomp]
    exact hnd
  rcases List.nodup_cons.mp hndmid with ⟨hrpnot, hndrest⟩
  rw [playersOf_removeAt]
  by_cases hq : q = (s.leaderboard.get ⟨i, hi⟩).player
  · subst hq
    rw [canonIndex_of_not_mem hrpnot]
    show (if (s.leaderboard.get ⟨i, hi⟩).player = (s.leaderboard.get ⟨i, hi⟩).player then 0
        else writeIndices s.playerIndex (indexAssignments (s.leaderboard.drop (i + 1)) i)
          (s.leaderboard.get ⟨i, hi⟩).player) = 0
    rw [if_pos rfl]
  · have hskip : setIndex
        (writeIndices s.playerIndex (indexAssignments (s.leaderboard.drop (i + 1)) i))
        (s.leaderboard.get ⟨i, hi⟩).player 0 q =
        writeIndices s.playerIndex (indexAssignments (s.leaderboard.drop (i + 1)) i) q := by
      show (if q = (s.leaderboard.get ⟨i, hi⟩).player then 0 else _) = _
      rw [if_neg hq]
    rw [hskip, writeIndices_indexAssignments _ _ _ hnddrop q, hpldrop]
    have htklen : ((playersOf s.leaderboard).take i).length = i := by
      rw [List.length_take]; omega
    rw [canonIndex_append, htklen]
    by_cases hdz : canonIndex ((playersOf s.leaderboard).drop (i + 1)) q = 0
    · have hcons : canonIndex
          ((s.leaderboard.get ⟨i, hi⟩).player :: (playersOf s.leaderboard).drop (i + 1)) q = 0 := by
        rw [canonIndex_cons, if_neg (fun h => hq h.symm), if_pos hdz]
      have hplq : canonIndex (playersOf s.leaderboard) q =
          if canonIndex ((playersOf s.leaderboard).take i) q = 0 then 0
          else canonIndex ((playersOf s.leaderboard).take i) q := by
        conv_lhs => rw [← hdecomp]
        rw [canonIndex_append, hcons, if_pos rfl]
      rw [if_pos hdz, if_pos hdz, hco q, hplq]
    · have hqdrop : q ∈ (playersOf s.leaderboard).drop (i + 1) := by
        by_contra hqd
        exact hdz (canonIndex_of_not_mem hqd)
      have hqtake : canonIndex ((playersOf s.leaderboard).take i) q = 0 := by
        apply canonIndex_of_not_mem
        intro hqt
        exact (List.disjoint_of_nodup_append hndrest) hqt hqdrop
      rw [if_neg hdz, hqtake, if_pos rfl, if_neg hdz]

lemma removeFromLeaderboard_inv {s : RewardsState} {i : Nat} {s1 : RewardsState}
    (hInv : Inv s) (h : removeFromLeaderboard s i = some s1) :
    Inv s1 ∧
    s1.leaderboard.length = s.leaderboard.length - 1 ∧
    (∃ hi : i < s.leaderboard.length,
        (s.leaderboard.get ⟨i, hi⟩).player ∉ playersOf s1.leaderboard) ∧
    s1.prizePool = s.prizePool ∧ s1.prizePoolSnapshot = s.prizePoolSnapshot ∧
    s1.minScoreThreshold = s.minScoreThreshold ∧ s1.hasClaimed = s.hasClaimed ∧
    s1.owner = s.owner ∧ s1.backendValidator = s.backendValidator ∧
    s1.engineBalance = s.engineBalance ∧ s1.tokenTotalSupply = s.tokenTotalSupply := by
  obtain ⟨hsorted, hlen, hnd, hco⟩ := hInv
  obtain ⟨hi, hs1⟩ := removeFromLeaderboard_some h
  have hsub : (removeAt s.leaderboard i).Sublist s.leaderboard := removeAt_sublist _ _
  have hspec := remove_playerIndex_spec s i hi hnd hco
  have hz0 : canonIndex (playersOf (removeAt s.leaderboard i))
      (s.leaderboard.get ⟨i, hi⟩).player = 0 := by
    have h0 := hspec (s.leaderboard.get ⟨i, hi⟩).player
    rw [← h0]
    simp [setIndex]
  have hnotmem := not_mem_of_canonIndex_eq_zero hz0
  subst hs1
  refine ⟨⟨?_, ?_, ?_, ?_⟩, ?_, ⟨hi, ?_⟩, rfl, rfl, rfl, rfl, rfl, rfl, rfl, rfl⟩
  · exact List.Pairwise.sublist (List.Sublist.map _ hsub) hsorted
  · rw [removeAt_length _ _ hi]
    omega
  · exact List.Nodup.sublist (List.Sublist.map _ hsub) hnd
  · exact hspec
  · rw [removeAt_length _ _ hi]
  · exact hnotmem

lemma list_set_same {α : Type} (l : List α) (i : Nat) (a : α)
    (h : l.get? i = some a) : l.set i a = l := by
  induction l generalizing i with
  | nil => simp at h
  | cons b t ih =>
    cases i with
    | zero =>
      simp only [List.get?] at h
      injection h with h
      rw [h]; rfl
    | succ j =>
      simp only [List.get?] at h
      show b :: t.set j a = b :: t
      rw [ih j h]

/-! ### Shape lemmas for successful operations -/

lemma captureSnapshot_frame (s : RewardsState) :
    (captureSnapshot s).prizePool = s.prizePool ∧
    (captureSnapshot s).leaderboard = s.leaderboard ∧
    (captureSnapshot s).playerIndex = s.playerIndex ∧
    (captureSnapshot s).hasClaimed = s.hasClaimed ∧
    (captureSnapshot s).minScoreThreshold = s.minScoreThreshold ∧
    (captureSnapshot s).owner = s.owner ∧
    (captureSnapshot s).backendValidator = s.backendValidator ∧
    (captureSnapshot s).engineBalance = s.engineBalance ∧
    (captureSnapshot s).tokenTotalSupply = s.tokenTotalSupply := by
  unfold captureSnapshot
  split <;> exact ⟨rfl, rfl, rfl, rfl, rfl, rfl, rfl, rfl, rfl⟩

lemma captureSnapshot_snapshot (s : RewardsState) :
    (captureSnapshot s).prizePoolSnapshot =
      if s.prizePoolSnapshot = 0 then s.prizePool else s.prizePoolSnapshot := by
  by_cases h : s.prizePoolSnapshot = 0
  · simp only [captureSnapshot]
    rw [if_pos h, if_pos h]
  · simp only [captureSnapshot]
    rw [if_neg h, if_neg h]

lemma claimRewards_ok {s : RewardsState} {p : Address} {s' : RewardsState}
    {evs : List RewardsEvent} (h : claimRewards s p = Except.ok (s', evs)) :
    p ≠ 0 ∧ s.hasClaimed p = false ∧ s.playerIndex p ≠ 0 ∧
    ∃ hlt : s.playerIndex p - 1 < s.leaderboard.length,
      (s.leaderboard.get ⟨s.playerIndex p - 1, hlt⟩).player = p ∧
      (s.leaderboard.get ⟨s.playerIndex p - 1, hlt⟩).claimed = false ∧
      s.minScoreThreshold ≤ (s.leaderboard.get ⟨s.playerIndex p - 1, hlt⟩).score ∧
      calculateReward (captureSnapshot s) (s.playerIndex p - 1) ≠ 0 ∧
      calculateReward (captureSnapshot s) (s.playerIndex p - 1) ≤ s.prizePool ∧
      calculateReward (captureSnapshot s) (s.playerIndex p - 1) ≤ s.engineBalance ∧
      evs = [RewardsEvent.RewardsDistributed p
        (calculateReward (captureSnapshot s) (s.playerIndex p - 1))
        (s.playerIndex p - 1 + 1)] ∧
      s'.leaderboard = s.leaderboard.set (s.playerIndex p - 1)
        { s.leaderboard.get ⟨s.playerIndex p - 1, hlt⟩ with claimed := true } ∧
      s'.playerIndex = s.playerIndex ∧
      s'.hasClaimed = setClaimed s.hasClaimed p ∧
      s'.prizePool = s.prizePool - calculateReward (captureSnapshot s) (s.playerIndex p - 1) ∧
      s'.prizePoolSnapshot =
        (if s.prizePoolSnapshot = 0 then s.prizePool else s.prizePoolSnapshot) ∧
      s'.minScoreThreshold = s.minScoreThreshold ∧
      s'.owner = s.owner ∧ s'.backendValidator = s.backendValidator ∧
      s'.engineBalance =
        s.engineBalance - calculateReward (captureSnapshot s) (s.playerIndex p - 1) ∧
      s'.tokenTotalSupply = s.tokenTotalSupply := by
  obtain ⟨hPool, hLb, hPi, hHc, hTh, hOw, hBv, hEb, hTs⟩ := captureSnapshot_frame s
  unfold claimRewards at h
  by_cases h1 : p = 0
  · rw [if_pos h1] at h; exact Except.noConfusion h
  rw [if_neg h1] at h
  by_cases h2 : s.hasClaimed p
  · rw [if_pos h2] at h; exact Except.noConfusion h
  rw [if_neg h2] at h
  by_cases h3 : s.playerIndex p = 0
  · rw [if_pos h3] at h; exact Except.noConfusion h
  rw [if_neg h3] at h
  by_cases h4 : s.playerIndex p - 1 < s.leaderboard.length
  swap
  · rw [dif_neg h4] at h; exact Except.noConfusion h
  rw [dif_pos h4] at h
  by_cases h5 : (s.leaderboard.get ⟨s.playerIndex p - 1, h4⟩).player ≠ p
  · rw [if_pos h5] at h; exact Except.noConfusion h
  rw [if_neg h5] at h
  push_neg at h5
  by_cases h6 : (s.leaderboard.get ⟨s.playerIndex p - 1, h4⟩).claimed
  · rw [if_pos h6] at h; exact Except.noConfusion h
  rw [if_neg h6] at h
  by_cases h7 : (s.leaderboard.get ⟨s.playerIndex p - 1, h4⟩).score < s.minScoreThreshold
  · rw [if_pos h7] at h; exact Except.noConfusion h
  rw [if_neg h7] at h
  by_cases h8 : calculateReward (captureSnapshot s) (s.playerIndex p - 1) = 0
  · rw [if_pos h8] at h; exact Except.noConfusion h
  rw [if_neg h8] at h
  by_cases h9 : (captureSnapshot s).prizePool <
      calculateReward (captureSnapshot s) (s.playerIndex p - 1)
  · rw [if_pos h9] at h; exact Except.noConfusion h
  rw [if_neg h9] at h
  by_cases h10 : (captureSnapshot s).engineBalance <
      calculateReward (captureSnapshot s) (s.playerIndex p - 1)
  · rw [if_pos h10] at h; exact Except.noConfusion h
  rw [if_neg h10] at h
  rw [Except.ok.injEq, Prod.mk.injEq] at h
  obtain ⟨hs', hevs⟩ := h
  subst hs'
  subst hevs
  rw [hPool] at h9
  rw [hEb] at h10
  refine ⟨h1, by simpa using h2, h3, h4, h5, by simpa using h6, Nat.le_of_not_lt h7,
    h8, Nat.le_of_not_lt h9, Nat.le_of_not_lt h10, rfl, ?_, ?_, ?_, ?_, ?_, ?_, ?_, ?_, ?_, ?_⟩
  · show (captureSnapshot s).leaderboard.set _ _ = _
    rw [hLb]
  · show (captureSnapshot s).playerIndex = _
    rw [hPi]
  · show setClaimed (captureSnapshot s).hasClaimed p = _
    rw [hHc]
  · show (captureSnapshot s).prizePool - _ = _
    rw [hPool]
  · show (captureSnapshot s).prizePoolSnapshot = _
    rw [captureSnapshot_snapshot]
  · show (captureSnapshot s).minScoreThreshold = _
    rw [hTh]
  · show (captureSnapshot s).owner = _
    rw [hOw]
  · show (captureSnapshot s).backendValidator = _
    rw [hBv]
  · show (captureSnapshot s).engineBalance - _ = _
    rw [hEb]
  · show (captureSnapshot s).tokenTotalSupply = _
    rw [hTs]

lemma submitScore_ok {s : RewardsState} {m p : Address} {sc ts : Nat}
    {s' : RewardsState} {evs : List RewardsEvent}
    (h : submitScore s m p sc ts = Except.ok (s', evs)) :
    m = s.backendValidator ∧ p ≠ 0 ∧ s.minScoreThreshold ≤ sc ∧
    evs = [RewardsEvent.ScoreSubmitted p sc ts] ∧
    ((s.playerIndex p = 0 ∧ s' = insertIntoLeaderboard s p sc ts) ∨
      (s.playerIndex p ≠ 0 ∧
        ∃ (hlt : s.playerIndex p - 1 < s.leaderboard.length) (s1 : RewardsState),
          (s.leaderboard.get ⟨s.playerIndex p - 1, hlt⟩).score < sc ∧
          removeFromLeaderboard s (s.playerIndex p - 1) = some s1 ∧
          s' = insertIntoLeaderboard s1 p sc ts)) := by
  unfold submitScore at h
  by_cases h1 : m ≠ s.backendValidator
  · rw [if_pos h1] at h; exact Except.noConfusion h
  rw [if_neg h1] at h
  push_neg at h1
  by_cases h2 : p = 0
  · rw [if_pos h2] at h; exact Except.noConfusion h
  rw [if_neg h2] at h
  by_cases h3 : sc < s.minScoreThreshold
  · rw [if_pos h3] at h; exact Except.noConfusion h
  rw [if_neg h3] at h
  by_cases h4 : s.playerIndex p = 0
  · rw [if_pos h4] at h
    rw [Except.ok.injEq, Prod.mk.injEq] at h
    obtain ⟨hs', hevs⟩ := h
    exact ⟨h1, h2, Nat.le_of_not_lt h3, hevs.symm, Or.inl ⟨h4, hs'.symm⟩⟩
  rw [if_neg h4] at h
  by_cases h5 : s.playerIndex p - 1 < s.leaderboard.length
  swap
  · rw [dif_neg h5] at h; exact Except.noConfusion h
  rw [dif_pos h5] at h
  by_cases h6 : sc ≤ (s.leaderboard.get ⟨s.playerIndex p - 1, h5⟩).score
  · rw [if_pos h6] at h; exact Except.noConfusion h
  rw [if_neg h6] at h
  have hrm : removeFromLeaderboard s (s.playerIndex p - 1) =
      some { s with
               leaderboard := removeAt s.leaderboard (s.playerIndex p - 1),
               playerIndex :=
                 setIndex
                   (writeIndices s.playerIndex
                     (indexAssignments (s.leaderboard.drop (s.playerIndex p - 1 + 1))
                       (s.playerIndex p - 1)))
                   (s.leaderboard.get ⟨s.playerIndex p - 1, h5⟩).player 0 } := by
    unfold removeFromLeaderboard
    rw [dif_pos h5]
  rw [hrm] at h
  rw [Except.ok.injEq, Prod.mk.injEq] at h
  obtain ⟨hs', hevs⟩ := h
  exact ⟨h1, h2, Nat.le_of_not_lt h3, hevs.symm,
    Or.inr ⟨h4, h5, _, Nat.lt_of_not_le h6, hrm, hs'.symm⟩⟩

lemma fundPrizePool_ok {s : RewardsState} {m : Address} {amount : Nat}
    {s' : RewardsState} {evs : List RewardsEvent}
    (h : fundPrizePool s m amount = Except.ok (s', evs)) :
    m = s.owner ∧ amount ≠ 0 ∧ s.tokenTotalSupply + amount ≤ MAX_SUPPLY ∧
    evs = [RewardsEvent.PrizePoolFunded amount (s.prizePool + amount)] ∧
    s' = { s with
             prizePool := s.prizePool + amount,
             prizePoolSnapshot :=
               if 0 < s.prizePoolSnapshot ∧ s.prizePoolSnapshot ≤ s.prizePool + amount then 0
               else s.prizePoolSnapshot,
             tokenTotalSupply := s.tokenTotalSupply + amount,
             engineBalance := s.engineBalance + amount } := by
  unfold fundPrizePool at h
  by_cases h1 : m ≠ s.owner
  · rw [if_pos h1] at h; exact Except.noConfusion h
  rw [if_neg h1] at h
  push_neg at h1
  by_cases h2 : amount = 0
  · rw [if_pos h2] at h; exact Except.noConfusion h
  rw [if_neg h2] at h
  by_cases h3 : MAX_SUPPLY < s.tokenTotalSupply + amount
  · rw [if_pos h3] at h; exact Except.noConfusion h
  rw [if_neg h3] at h
  rw [Except.ok.injEq, Prod.mk.injEq] at h
  obtain ⟨hs', hevs⟩ := h
  exact ⟨h1, h2, Nat.le_of_not_lt h3, hevs.symm, hs'.symm⟩

lemma setBackendValidator_ok {s : RewardsState} {m v : Address}
    {s' : RewardsState} {evs : List RewardsEvent}
    (h : setBackendValidator s m v = Except.ok (s', evs)) :
    m = s.owner ∧ v ≠ 0 ∧ evs = [] ∧ s' = { s with backendValidator := v } := by
  unfold setBackendValidator at h
  by_cases h1 : m ≠ s.owner
  · rw [if_pos h1] at h; exact Except.noConfusion h
  rw [if_neg h1] at h
  push_neg at h1
  by_cases h2 : v = 0
  · rw [if_pos h2] at h; exact Except.noConfusion h
  rw [if_neg h2] at h
  rw [Except.ok.injEq, Prod.mk.injEq] at h
  obtain ⟨hs', hevs⟩ := h
  exact ⟨h1, h2, hevs.symm, hs'.symm⟩

lemma setMinScoreThreshold_ok {s : RewardsState} {m : Address} {t : Nat}
    {s' : RewardsState} {evs : List RewardsEvent}
    (h : setMinScoreThreshold s m t = Except.ok (s', evs)) :
    m = s.owner ∧ evs = [] ∧ s' = { s with minScoreThreshold := t } := by
  unfold setMinScoreThreshold at h
  by_cases h1 : m ≠ s.owner
  · rw [if_pos h1] at h; exact Except.noConfusion h
  rw [if_neg h1] at h
  push_neg at h1
  rw [Except.ok.injEq, Prod.mk.injEq] at h
  obtain ⟨hs', hevs⟩ := h
  exact ⟨h1, hevs.symm, hs'.symm⟩

/-! ### Invariant preservation -/

lemma run_eq_of_ok {s : RewardsState} {op : Op} {s' : RewardsState}
    {evs : List RewardsEvent} (h : exec s op = Except.ok (s', evs)) : run s op = s' := by
  unfold run
  rw [h]

lemma run_eq_of_error {s : RewardsState} {op : Op} {e : RewardsError}
    (h : exec s op = Except.error e) : run s op = s := by
  unfold run
  rw [h]

lemma players_set_same (lb : List LeaderboardEntry) (i : Nat) (hlt : i < lb.length) :
    playersOf (lb.set i { lb.get ⟨i, hlt⟩ with claimed := true }) = playersOf lb := by
  unfold playersOf
  rw [List.map_set]
  have hi : i < (List.map (fun e => e.player) lb).length := by
    rw [List.length_map]; exact hlt
  apply list_set_same
  rw [List.get?_eq_get hi]
  exact congrArg some (List.get_map _)

lemma scores_set_same (lb : List LeaderboardEntry) (i : Nat) (hlt : i < lb.length) :
    scoresOf (lb.set i { lb.get ⟨i, hlt⟩ with claimed := true }) = scoresOf lb := by
  unfold scoresOf
  rw [List.map_set]
  have hi : i < (List.map (fun e => e.score) lb).length := by
    rw [List.length_map]; exact hlt
  apply list_set_same
  rw [List.get?_eq_get hi]
  exact congrArg some (List.get_map _)

lemma inv_claim {s : RewardsState} {p : Address} {s' : RewardsState}
    {evs : List RewardsEvent} (hInv : Inv s)
    (h : claimRewards s p = Except.ok (s', evs)) : Inv s' := by
  obtain ⟨hsorted, hlen, hnd, hco⟩ := hInv
  obtain ⟨h1, h2, h3, hlt, h5, h6, h7, h8, h9, h10, hevs, hlb, hpi, hhc, hpool, hsnap,
    hthr, how, hbv, heb, hts⟩ := claimRewards_ok h
  refine ⟨?_, ?_, ?_, ?_⟩
  · rw [hlb, scores_set_same _ _ hlt]
    exact hsorted
  · rw [hlb, List.length_set]
    exact hlen
  · rw [hlb, players_set_same _ _ hlt]
    exact hnd
  · intro q
    rw [hpi, hlb, players_set_same _ _ hlt]
    exact hco q

lemma inv_submit {s : RewardsState} {m p : Address} {sc ts : Nat} {s' : RewardsState}
    {evs : List RewardsEvent} (hInv : Inv s)
    (h : submitScore s m p sc ts = Except.ok (s', evs)) : Inv s' := by
  obtain ⟨hm, hp0, hth, hevs, hcase⟩ := submitScore_ok h
  rcases hcase with ⟨hpi0, hs'⟩ | ⟨hpin, hlt, s1, hsc, hrm, hs'⟩
  · subst hs'
    apply insertIntoLeaderboard_inv _ _ _ _ hInv
    exact not_mem_of_canonIndex_eq_zero (by rw [← hInv.2.2.2 p]; exact hpi0)
  · subst hs'
    obtain ⟨hInv1, hlen1, ⟨hi2, hnm⟩, _, _, _, _, _, _, _, _⟩ :=
      removeFromLeaderboard_inv hInv hrm
    have hple : (s.leaderboard.get ⟨s.playerIndex p - 1, hlt⟩).player = p := by
      have hcp := hInv.2.2.2 p
      have hk : canonIndex (playersOf s.leaderboard) p = (s.playerIndex p - 1) + 1 := by
        omega
      obtain ⟨hklt, hget⟩ := canonIndex_get hk
      have hgm : (playersOf s.leaderboard).get ⟨s.playerIndex p - 1, hklt⟩ =
          (s.leaderboard.get ⟨s.playerIndex p - 1, hlt⟩).player := List.get_map _
      rw [hgm] at hget
      exact hget
    apply insertIntoLeaderboard_inv _ _ _ _ hInv1
    have heq : s.leaderboard.get ⟨s.playerIndex p - 1, hi2⟩ =
        s.leaderboard.get ⟨s.playerIndex p - 1, hlt⟩ := rfl
    rw [heq, hple] at hnm
    exact hnm

lemma inv_run (s : RewardsState) (op : Op) (hInv : Inv s) : Inv (run s op) := by
  cases hE : exec s op with
  | error e =>
    rw [run_eq_of_error hE]
    exact hInv
  | ok r =>
    obtain ⟨s', evs⟩ := r
    rw [run_eq_of_ok hE]
    cases op with
    | submit m p sc ts => exact inv_submit hInv hE
    | claim p => exact inv_claim hInv hE
    | fund m a =>
      obtain ⟨_, _, _, _, hs'⟩ := fundPrizePool_ok hE
      subst hs'
      exact hInv
    | setValidator m v =>
      obtain ⟨_, _, _, hs'⟩ := setBackendValidator_ok hE
      subst hs'
      exact hInv
    | setThreshold m t =>
      obtain ⟨_, _, hs'⟩ := setMinScoreThreshold_ok hE
      subst hs'
      exact hInv

lemma inv_init (o v t : Nat) : Inv (initState o v t) := by
  refine ⟨?_, ?_, ?_, ?_⟩
  · simp [initState, scoresOf]
  · simp [initState, MAX_LEADERBOARD_SIZE]
  · simp [initState, playersOf]
  · intro q
    rfl

lemma inv_reachable {s : RewardsState} (h : Reachable s) : Inv s := by
  induction h with
  | init o v t hv => exact inv_init o v t
  | step s op hs ih => exact inv_run s op ih

/-! ### Epoch payout accounting -/

lemma submitScore_ok_frame {s : RewardsState} {m p : Address} {sc ts : Nat}
    {s' : RewardsState} {evs : List RewardsEvent}
    (h : submitScore s m p sc ts = Except.ok (s', evs)) :
    s'.prizePool = s.prizePool ∧ s'.prizePoolSnapshot = s.prizePoolSnapshot ∧
    s'.minScoreThreshold = s.minScoreThreshold ∧ s'.hasClaimed = s.hasClaimed ∧
    s'.owner = s.owner ∧ s'.backendValidator = s.backendValidator ∧
    s'.engineBalance = s.engineBalance ∧ s'.tokenTotalSupply = s.tokenTotalSupply := by
  obtain ⟨_, _, _, _, hcase⟩ := submitScore_ok h
  rcases hcase with ⟨_, hs'⟩ | ⟨_, hlt, s1, _, hrm, hs'⟩
  · subst hs'
    obtain ⟨a, b, c, d, e, f, g, i⟩ := insertIntoLeaderboard_frame s p sc ts
    exact ⟨a, b, c, d, e, f, g, i⟩
  · subst hs'
    obtain ⟨hi, hs1⟩ := removeFromLeaderboard_some hrm
    subst hs1
    obtain ⟨a, b, c, d, e, f, g, i⟩ := insertIntoLeaderboard_frame _ p sc ts
    exact ⟨a, b, c, d, e, f, g, i⟩

lemma epochBound_step {sp : RewardsState × Nat} {op : Op} (hJ : EpochBound sp)
    (hnf : isFund op = false) : EpochBound (runPaid sp op) := by
  obtain ⟨hJ1, hJ2⟩ := hJ
  cases hE : exec sp.1 op with
  | error e =>
    have hrp : runPaid sp op = sp := by
      unfold runPaid
      rw [hE]
    rw [hrp]
    exact ⟨hJ1, hJ2⟩
  | ok r =>
    obtain ⟨s', evs⟩ := r
    have hrp : runPaid sp op = (s', sp.2 + (evs.map eventPayout).sum) := by
      unfold runPaid
      rw [hE]
    rw [hrp]
    cases op with
    | submit m p sc ts =>
      obtain ⟨_, _, _, hevs, _⟩ := submitScore_ok hE
      obtain ⟨hpool, hsnap, _, _, _, _, _, _⟩ := submitScore_ok_frame hE
      subst hevs
      refine ⟨?_, ?_⟩
      · intro hz
        rw [hsnap] at hz
        have := hJ1 hz
        simp [eventPayout]
        omega
      · intro hz
        rw [hsnap] at hz
        have := hJ2 hz
        simp [eventPayout, hsnap, hpool]
        omega
    | claim p =>
      obtain ⟨h1, h2, h3, hlt, h5, h6, h7, h8, h9, h10, hevs, hlb, hpi, hhc, hpool, hsnap,
        hthr, how, hbv, heb, hts⟩ := claimRewards_ok hE
      subst hevs
      have hsum : ([RewardsEvent.RewardsDistributed p
          (calculateReward (captureSnapshot sp.1) (sp.1.playerIndex p - 1))
          (sp.1.playerIndex p - 1 + 1)].map eventPayout).sum =
          calculateReward (captureSnapshot sp.1) (sp.1.playerIndex p - 1) := by
        simp [eventPayout]
      rw [hsum]
      by_cases hz : sp.1.prizePoolSnapshot = 0
      · have hpd : sp.2 = 0 := hJ1 hz
        rw [if_pos hz] at hsnap
        refine ⟨?_, ?_⟩
        · intro hz'
          rw [hsnap] at hz'
          omega
        · intro hz'
          rw [hsnap, hpool]
          omega
      · have hle := hJ2 hz
        rw [if_neg hz] at hsnap
        refine ⟨?_, ?_⟩
        · intro hz'
          rw [hsnap] at hz'
          exact absurd hz' hz
        · intro hz'
          rw [hsnap, hpool]
          omega
    | fund m a =>
      exact absurd hnf (by simp [isFund])
    | setValidator m v =>
      obtain ⟨_, _, hevs, hs'⟩ := setBackendValidator_ok hE
      subst hevs
      subst hs'
      exact ⟨fun hz => by simpa using hJ1 hz, fun hz => by simpa using hJ2 hz⟩
    | setThreshold m t =>
      obtain ⟨_, hevs, hs'⟩ := setMinScoreThreshold_ok hE
      subst hevs
      subst hs'
      exact ⟨fun hz => by simpa using hJ1 hz, fun hz => by simpa using hJ2 hz⟩

lemma epochBound_all {sp : RewardsState × Nat} {ops : List Op} (hJ : EpochBound sp)
    (hnf : ∀ op ∈ ops, isFund op = false) : EpochBound (runPaidAll sp ops) := by
  induction ops generalizing sp with
  | nil => exact hJ
  | cons o rest ih =>
    exact ih (epochBound_step hJ (hnf o (List.mem_cons_self o rest)))
      (fun op hop => hnf op (List.mem_cons_of_mem o hop))

/-! ### The reward computation matches the specification's tier table -/

lemma bps_div (pool k : Nat) : pool * (k * 100) / 10000 = pool * k / 100 := by
  have h : (10000 : Nat) = 100 * 100 := rfl
  rw [h, ← Nat.mul_assoc]
  exact Nat.mul_div_mul_right (pool * k) 100 (by omega)

lemma calculateReward_eq_specTierReward (s : RewardsState) (i : Nat) :
    calculateReward s i =
      specTierReward (poolForCalculation s) s.leaderboard s.minScoreThreshold i := by
  have e1 : poolForCalculation s * FIRST_PLACE_PERCENT / 10000 =
      poolForCalculation s * 40 / 100 := bps_div (poolForCalculation s) 40
  have e2 : poolForCalculation s * SECOND_PLACE_PERCENT / 10000 =
      poolForCalculation s * 25 / 100 := bps_div (poolForCalculation s) 25
  have e3 : poolForCalculation s * THIRD_PLACE_PERCENT / 10000 =
      poolForCalculation s * 15 / 100 := bps_div (poolForCalculation s) 15
  have e4 : poolForCalculation s * PLACES_4_10_PERCENT / 10000 =
      poolForCalculation s * 10 / 100 := bps_div (poolForCalculation s) 10
  have e5 : poolForCalculation s * PARTICIPATION_PERCENT / 10000 =
      poolForCalculation s * 10 / 100 := bps_div (poolForCalculation s) 10
  unfold calculateReward specTierReward countEligiblePlayers
  by_cases hp0 : poolForCalculation s = 0
  · rw [if_pos hp0, if_pos hp0]
  rw [if_neg hp0, if_neg hp0]
  by_cases hi1 : i + 1 = 1
  · rw [if_pos hi1, if_pos hi1, e1]
  rw [if_neg hi1, if_neg hi1]
  by_cases hi2 : i + 1 = 2
  · rw [if_pos hi2, if_pos hi2, e2]
  rw [if_neg hi2, if_neg hi2]
  by_cases hi3 : i + 1 = 3
  · rw [if_pos hi3, if_pos hi3, e3]
  rw [if_neg hi3, if_neg hi3]
  by_cases h410 : 4 ≤ i + 1 ∧ i + 1 ≤ 10
  · rw [if_pos h410, if_pos h410]
    by_cases hlen4 : s.leaderboard.length < 4
    · rw [if_pos hlen4]
      have hz : (if 10 ≤ s.leaderboard.length then 7
          else if 4 ≤ s.leaderboard.length then s.leaderboard.length - 3 else 0) = 0 := by
        rw [if_neg (by omega), if_neg (by omega)]
      rw [hz, if_pos rfl]
    · rw [if_neg hlen4]
      have hnz : (if 10 ≤ s.leaderboard.length then 7
          else if 4 ≤ s.leaderboard.length then s.leaderboard.length - 3 else 0) =
          min s.leaderboard.length 10 - 3 := by
        by_cases h10 : 10 ≤ s.leaderboard.length
        · rw [if_pos h10, min_eq_right h10]
        · rw [if_neg h10, if_pos (by omega), min_eq_left (by omega)]
      have hmin : 4 ≤ min s.leaderboard.length 10 := by
        rcases Nat.le_total s.leaderboard.length 10 with hc | hc
        · rw [min_eq_left hc]
          omega
        · rw [min_eq_right hc]
          omega
      rw [hnz, if_neg (by omega), e4]
  · rw [if_neg h410, if_neg h410, e5]

/-! ### Claim theorems -/

/-- Claim C1 (counterexample): the claim that the sum of reward payouts within one
pool epoch never exceeds the captured PrizePoolSnapshot is false when
fundPrizePool adds amounts mid-epoch that leave the pool below the snapshot.
In the concrete trace `epochOps` the snapshot is captured at 1000 at the third
call and is never cleared (the snapshot observed before each later call and at
the end stays 1000, so the whole suffix is a single epoch), yet the claims pay
out 400 + 400 + 400 = 1200 > 1000, because three different players occupy
rank 1 one after the other and each is paid 40% of the same snapshot. -/
theorem claim_C1_counterexample :
    snapshotTrace (initState 1 2 0) epochOps =
      [0, 0, 0, 1000, 1000, 1000, 1000, 1000, 1000] ∧
    (runPaidAll (initState 1 2 0, 0) epochOps).1.prizePoolSnapshot = 1000 ∧
    (runPaidAll (initState 1 2 0, 0) epochOps).2 = 1200 ∧
    1000 < 1200 := by
  refine ⟨by decide, by decide, by decide, by decide⟩

/-- Claim C1 (amended): within one pool epoch during which no fundPrizePool call
occurs, the sum of all reward amounts paid out by successful claimRewards
calls never exceeds the PrizePoolSnapshot captured for that epoch, no matter
how submitScore calls reshuffle which player occupies each rank between
claims.  (With mid-epoch funding the bound fails, as the counterexample
shows.) -/
theorem claim_C1_amended (s0 : RewardsState) (ops : List Op)
    (h0 : s0.prizePoolSnapshot = 0)
    (hnf : ∀ op ∈ ops, isFund op = false) :
    (runPaidAll (s0, 0) ops).2 ≤ (runPaidAll (s0, 0) ops).1.prizePoolSnapshot := by
  have hJ0 : EpochBound (s0, 0) := ⟨fun _ => rfl, fun hne => absurd h0 hne⟩
  obtain ⟨hJ1, hJ2⟩ := epochBound_all hJ0 hnf
  by_cases hz : (runPaidAll (s0, 0) ops).1.prizePoolSnapshot = 0
  · have := hJ1 hz
    omega
  · have := hJ2 hz
    omega

/-- Claim C1 (amended) witness: from a freshly funded pool of 1000 the trace
submit-then-claim pays 400, which is at most the final snapshot 1000. -/
theorem claim_C1_amended_witness :
    (runPaidAll (runAll (initState 1 2 0) [Op.fund 1 1000], 0)
        [Op.submit 2 10 100 0, Op.claim 10]).2 ≤
      (runPaidAll (runAll (initState 1 2 0) [Op.fund 1 1000], 0)
        [Op.submit 2 10 100 0, Op.claim 10]).1.prizePoolSnapshot :=
  claim_C1_amended (runAll (initState 1 2 0) [Op.fund 1 1000])
    [Op.submit 2 10 100 0, Op.claim 10] (by decide) (by decide)

/-- Claim C2: in every reachable state the leaderboard is sorted by score
descending, holds at most 100 entries, no two entries share a player, and
playerIndex is a perfect bijection with occupied positions: playerIndex p is
i+1 exactly when the entry at 0-based position i is p's, and 0 exactly when p
has no entry. -/
theorem claim_C2_leaderboard_invariant (s : RewardsState) (h : Reachable s) :
    (scoresOf s.leaderboard).Pairwise (fun a b => b ≤ a) ∧
    s.leaderboard.length ≤ 100 ∧
    (playersOf s.leaderboard).Nodup ∧
    (∀ (p : Address) (i : Nat) (hi : i < s.leaderboard.length),
        s.playerIndex p = i + 1 ↔ (s.leaderboard.get ⟨i, hi⟩).player = p) ∧
    (∀ p : Address, s.playerIndex p = 0 ↔ ∀ e ∈ s.leaderboard, e.player ≠ p) := by
  obtain ⟨hsorted, hlen, hnd, hco⟩ := inv_reachable h
  refine ⟨hsorted, hlen, hnd, ?_, ?_⟩
  · intro p i hi
    constructor
    · intro hpi
      have hk : canonIndex (playersOf s.leaderboard) p = i + 1 := by
        rw [← hco p]
        exact hpi
      obtain ⟨hklt, hget⟩ := canonIndex_get hk
      have hgm : (playersOf s.leaderboard).get ⟨i, hklt⟩ =
          (s.leaderboard.get ⟨i, hi⟩).player := List.get_map _
      rw [hgm] at hget
      exact hget
    · intro hget
      rw [hco p, ← hget]
      have hig : i < (playersOf s.leaderboard).length := by
        rw [playersOf_length]
        exact hi
      have hgm : (playersOf s.leaderboard).get ⟨i, hig⟩ =
          (s.leaderboard.get ⟨i, hi⟩).player := List.get_map _
      rw [← hgm]
      exact canonIndex_get_self hnd i hig
  · intro p
    rw [hco p]
    constructor
    · intro hz e he hep
      exact (not_mem_of_canonIndex_eq_zero hz) (List.mem_map.mpr ⟨e, he, hep⟩)
    · intro hall
      apply canonIndex_of_not_mem
      intro hmem
      obtain ⟨e, he, hep⟩ := List.mem_map.mp hmem
      exact hall e he hep

/-- Claim C2 witness: the invariant holds at the concrete reachable state reached
by funding 1000 and then submitting a score of 100 for player 10. -/
theorem claim_C2_witness :
    (scoresOf fundedOneClaimBase.leaderboard).Pairwise (fun a b => b ≤ a) ∧
    fundedOneClaimBase.leaderboard.length ≤ 100 ∧
    (playersOf fundedOneClaimBase.leaderboard).Nodup ∧
    (∀ (p : Address) (i : Nat) (hi : i < fundedOneClaimBase.leaderboard.length),
        fundedOneClaimBase.playerIndex p = i + 1 ↔
          (fundedOneClaimBase.leaderboard.get ⟨i, hi⟩).player = p) ∧
    (∀ p : Address, fundedOneClaimBase.playerIndex p = 0 ↔
        ∀ e ∈ fundedOneClaimBase.leaderboard, e.player ≠ p) :=
  claim_C2_leaderboard_invariant fundedOneClaimBase
    (Reachable.step (run (initState 1 2 0) (Op.fund 1 1000)) (Op.submit 2 10 100 0)
      (Reachable.step (initState 1 2 0) (Op.fund 1 1000)
        (Reachable.init 1 2 0 (by decide))))

/-- Claim C3: for every state and every index below the leaderboard length the
computed reward equals the specification's tier table applied to
poolForCalculation with truncating division, and in particular with ten
ranked players and poolForCalculation 1000 the rank-5 reward is
floor(100/7) = 14. -/
theorem claim_C3_reward_table (s : RewardsState) (i : Nat)
    (hi : i < s.leaderboard.length) :
    calculateReward s i =
      specTierReward (poolForCalculation s) s.leaderboard s.minScoreThreshold i ∧
    scenDState.leaderboard.length = 10 ∧
    poolForCalculation scenDState = 1000 ∧
    calculateReward scenDState 4 = 14 :=
  ⟨calculateReward_eq_specTierReward s i, by decide, by decide, by decide⟩

/-- Claim C3 witness: the reward table equation instantiated at Scenario D's state
and rank 5 (0-based index 4). -/
theorem claim_C3_witness :
    calculateReward scenDState 4 =
      specTierReward (poolForCalculation scenDState) scenDState.leaderboard
        scenDState.minScoreThreshold 4 ∧
    scenDState.leaderboard.length = 10 ∧
    poolForCalculation scenDState = 1000 ∧
    calculateReward scenDState 4 = 14 :=
  claim_C3_reward_table scenDState 4 (by decide)

/-- Claim C4: an accepted insertion goes to the first position whose stored score
is strictly below the new score (all earlier positions hold equal-or-higher
scores, so they stay ahead and ties are stable), lower entries shift down
with playerIndex kept coherent with positions, the entry is appended when no
such position exists, and when the length exceeds 100 the last entry is
removed with its playerIndex cleared; in particular (Scenario B) submitting
101 distinct players' scores descending from 1000 to 900 leaves 100 entries
with scores 1000 down to 901, the score-900 player having been evicted. -/
theorem claim_C4_insertion (s : RewardsState) (p : Address) (sc ts : Nat)
    (hnd : (playersOf s.leaderboard).Nodup)
    (hco : ∀ q, s.playerIndex q = canonIndex (playersOf s.leaderboard) q)
    (hp : p ∉ playersOf s.leaderboard) :
    (∀ (j : Nat) (hj : j < s.leaderboard.length),
        j < findInsertIndex sc s.leaderboard → sc ≤ (s.leaderboard.get ⟨j, hj⟩).score) ∧
    (∀ hfi : findInsertIndex sc s.leaderboard < s.leaderboard.length,
        (s.leaderboard.get ⟨findInsertIndex sc s.leaderboard, hfi⟩).score < sc) ∧
    (insertIntoLeaderboard s p sc ts).leaderboard =
      (if MAX_LEADERBOARD_SIZE <
          (insertAt s.leaderboard (findInsertIndex sc s.leaderboard)
            ⟨p, sc, ts, false⟩).length
       then (insertAt s.leaderboard (findInsertIndex sc s.leaderboard)
           ⟨p, sc, ts, false⟩).dropLast
       else insertAt s.leaderboard (findInsertIndex sc s.leaderboard) ⟨p, sc, ts, false⟩) ∧
    (∀ q, (insertIntoLeaderboard s p sc ts).playerIndex q =
        canonIndex (playersOf (insertIntoLeaderboard s p sc ts).leaderboard) q) ∧
    (scenarioBState.leaderboard.length = 100 ∧
      scoresOf scenarioBState.leaderboard = (List.range 100).map (fun k => 1000 - k) ∧
      (scoresOf scenarioBState.leaderboard).getLastD 0 = 901 ∧
      scenarioBState.playerIndex 110 = 0 ∧
      scenarioBState.leaderboard = board100.leaderboard) := by
  exact ⟨(findInsertIndex_sound sc s.leaderboard).1,
    (findInsertIndex_sound sc s.leaderboard).2,
    insertIntoLeaderboard_leaderboard s p sc ts,
    insertIntoLeaderboard_playerIndex s p sc ts hnd hco hp,
    by decide, by decide, by decide, by decide, by decide⟩

/-- Claim C4 witness: the insertion characterization instantiated at the concrete
one-entry state, inserting score 60 for the unranked player 11. -/
theorem claim_C4_witness :
    (∀ (j : Nat) (hj : j < oneEntryBase.leaderboard.length),
        j < findInsertIndex 60 oneEntryBase.leaderboard →
          60 ≤ (oneEntryBase.leaderboard.get ⟨j, hj⟩).score) ∧
    (∀ hfi : findInsertIndex 60 oneEntryBase.leaderboard < oneEntryBase.leaderboard.length,
        (oneEntryBase.leaderboard.get
          ⟨findInsertIndex 60 oneEntryBase.leaderboard, hfi⟩).score < 60) ∧
    (insertIntoLeaderboard oneEntryBase 11 60 7).leaderboard =
      (if MAX_LEADERBOARD_SIZE <
          (insertAt oneEntryBase.leaderboard (findInsertIndex 60 oneEntryBase.leaderboard)
            ⟨11, 60, 7, false⟩).length
       then (insertAt oneEntryBase.leaderboard (findInsertIndex 60 oneEntryBase.leaderboard)
           ⟨11, 60, 7, false⟩).dropLast
       else insertAt oneEntryBase.leaderboard (findInsertIndex 60 oneEntryBase.leaderboard)
         ⟨11, 60, 7, false⟩) ∧
    (∀ q, (insertIntoLeaderboard oneEntryBase 11 60 7).playerIndex q =
        canonIndex (playersOf (insertIntoLeaderboard oneEntryBase 11 60 7).leaderboard) q) ∧
    (scenarioBState.leaderboard.length = 100 ∧
      scoresOf scenarioBState.leaderboard = (List.range 100).map (fun k => 1000 - k) ∧
      (scoresOf scenarioBState.leaderboard).getLastD 0 = 901 ∧
      scenarioBState.playerIndex 110 = 0 ∧
      scenarioBState.leaderboard = board100.leaderboard) :=
  claim_C4_insertion oneEntryBase 11 60 7
    (inv_reachable (Reachable.step (initState 1 2 0) (Op.submit 2 10 50 0)
      (Reachable.init 1 2 0 (by decide)))).2.2.1
    (inv_reachable (Reachable.step (initState 1 2 0) (Op.submit 2 10 50 0)
      (Reachable.init 1 2 0 (by decide)))).2.2.2
    (by decide)

/-- Claim C5: a call that fails any precondition aborts with a named error and
leaves the whole state exactly unchanged, and in particular after a
successful claimRewards for a player a second claimRewards for the same
player always fails with AlreadyClaimed, the state after the failed second
call being equal to the state after the first successful one. -/
theorem claim_C5_atomic_failure_and_claim_once
    (s s' : RewardsState) (evs : List RewardsEvent) (p : Address)
    (h : claimRewards s p = Except.ok (s', evs)) :
    claimRewards s' p = Except.error RewardsError.AlreadyClaimed ∧
    run s' (Op.claim p) = s' ∧
    (∀ (t : RewardsState) (op : Op) (e : RewardsError),
        exec t op = Except.error e → run t op = t) := by
  obtain ⟨h1, h2, h3, hlt, h5, h6, h7, h8, h9, h10, hevs, hlb, hpi, hhc, hpool, hsnap,
    hthr, how, hbv, heb, hts⟩ := claimRewards_ok h
  have hhc' : s'.hasClaimed p = true := by
    rw [hhc]
    simp [setClaimed]
  have herr : claimRewards s' p = Except.error RewardsError.AlreadyClaimed := by
    unfold claimRewards
    rw [if_neg h1, if_pos hhc']
  exact ⟨herr, run_eq_of_error herr, fun t op e hE => run_eq_of_error hE⟩

/-- Claim C5 witness: in the concrete funded single-player state, player 10's claim
succeeds paying 400 at rank 1, and the second claim fails with AlreadyClaimed
leaving the state unchanged. -/
theorem claim_C5_witness :
    claimRewards (run fundedOneClaimBase (Op.claim 10)) 10 =
      Except.error RewardsError.AlreadyClaimed ∧
    run (run fundedOneClaimBase (Op.claim 10)) (Op.claim 10) =
      run fundedOneClaimBase (Op.claim 10) ∧
    (∀ (t : RewardsState) (op : Op) (e : RewardsError),
        exec t op = Except.error e → run t op = t) :=
  claim_C5_atomic_failure_and_claim_once fundedOneClaimBase
    (run fundedOneClaimBase (Op.claim 10))
    [RewardsEvent.RewardsDistributed 10 400 1] 10 rfl

/-- Claim C6: fundPrizePool succeeds only for the owner with a positive amount
(failing with Unauthorized / InvalidAmount otherwise); on success it adds
exactly the amount to the pool, mints exactly the amount into the engine's
own token custody (raising the total supply accordingly), and it clears the
snapshot exactly when a snapshot was set and the new pool reaches it. -/
theorem claim_C6_fund_pool (s : RewardsState) (m : Address) (amount : Nat) :
    (∀ (s' : RewardsState) (evs : List RewardsEvent),
        fundPrizePool s m amount = Except.ok (s', evs) →
          m = s.owner ∧ 0 < amount ∧
          s'.prizePool = s.prizePool + amount ∧
          s'.engineBalance = s.engineBalance + amount ∧
          s'.tokenTotalSupply = s.tokenTotalSupply + amount ∧
          ((0 < s.prizePoolSnapshot ∧ s.prizePoolSnapshot ≤ s.prizePool + amount) →
              s'.prizePoolSnapshot = 0) ∧
          (¬(0 < s.prizePoolSnapshot ∧ s.prizePoolSnapshot ≤ s.prizePool + amount) →
              s'.prizePoolSnapshot = s.prizePoolSnapshot)) ∧
    (m ≠ s.owner → fundPrizePool s m amount = Except.error RewardsError.Unauthorized) ∧
    (m = s.owner → amount = 0 →
        fundPrizePool s m amount = Except.error RewardsError.InvalidAmount) := by
  refine ⟨?_, ?_, ?_⟩
  · intro s' evs h
    obtain ⟨hm, ha, _, _, hs'⟩ := fundPrizePool_ok h
    subst hs'
    refine ⟨hm, Nat.pos_of_ne_zero ha, rfl, rfl, rfl, ?_, ?_⟩
    · intro hc
      show (if 0 < s.prizePoolSnapshot ∧ s.prizePoolSnapshot ≤ s.prizePool + amount then 0
          else s.prizePoolSnapshot) = 0
      rw [if_pos hc]
    · intro hc
      show (if 0 < s.prizePoolSnapshot ∧ s.prizePoolSnapshot ≤ s.prizePool + amount then 0
          else s.prizePoolSnapshot) = s.prizePoolSnapshot
      rw [if_neg hc]
  · intro hm
    unfold fundPrizePool
    rw [if_pos hm]
  · intro hm ha
    unfold fundPrizePool
    rw [if_neg (not_not_intro hm), if_pos ha]

/-- Claim C7: for a player who already holds an entry, a submitScore whose score is
not strictly greater than the stored score fails with ScoreNotImproved
leaving the state unchanged, and when the score is strictly greater the old
entry is removed before the new one is inserted. -/
theorem claim_C7_resubmission (s : RewardsState) (m p : Address) (sc ts i : Nat)
    (hm : m = s.backendValidator) (hp : p ≠ 0) (hth : s.minScoreThreshold ≤ sc)
    (hpi : s.playerIndex p = i + 1) (hlt : i < s.leaderboard.length) :
    (sc ≤ (s.leaderboard.get ⟨i, hlt⟩).score →
        submitScore s m p sc ts = Except.error RewardsError.ScoreNotImproved ∧
        run s (Op.submit m p sc ts) = s) ∧
    ((s.leaderboard.get ⟨i, hlt⟩).score < sc →
        ∃ s1, removeFromLeaderboard s i = some s1 ∧
          submitScore s m p sc ts =
            Except.ok (insertIntoLeaderboard s1 p sc ts,
              [RewardsEvent.ScoreSubmitted p sc ts])) := by
  constructor
  · intro hle
    have herr : submitScore s m p sc ts = Except.error RewardsError.ScoreNotImproved := by
      unfold submitScore
      rw [hpi]
      simp only [Nat.add_sub_cancel]
      rw [if_neg (not_not_intro hm), if_neg hp, if_neg (Nat.not_lt.mpr hth),
        if_neg (Nat.succ_ne_zero i), dif_pos hlt, if_pos hle]
    exact ⟨herr, run_eq_of_error herr⟩
  · intro hgt
    have hrm : removeFromLeaderboard s i =
        some { s with
                 leaderboard := removeAt s.leaderboard i,
                 playerIndex :=
                   setIndex
                     (writeIndices s.playerIndex
                       (indexAssignments (s.leaderboard.drop (i + 1)) i))
                     (s.leaderboard.get ⟨i, hlt⟩).player 0 } := by
      unfold removeFromLeaderboard
      rw [dif_pos hlt]
    refine ⟨_, hrm, ?_⟩
    unfold submitScore
    rw [hpi]
    simp only [Nat.add_sub_cancel]
    rw [if_neg (not_not_intro hm), if_neg hp, if_neg (Nat.not_lt.mpr hth),
      if_neg (Nat.succ_ne_zero i), dif_pos hlt, if_neg (Nat.not_le.mpr hgt), hrm]

/-- Claim C7 witness: with player 10 ranked at score 50, resubmitting 40 fails with
ScoreNotImproved and leaves the state unchanged. -/
theorem claim_C7_witness :
    submitScore oneEntryBase 2 10 40 0 = Except.error RewardsError.ScoreNotImproved ∧
    run oneEntryBase (Op.submit 2 10 40 0) = oneEntryBase :=
  (claim_C7_resubmission oneEntryBase 2 10 40 0 0 rfl (by decide) (by decide)
    (by decide) (by decide)).1 (by decide)

/-- Claim C8: when no snapshot is set and the live pool is 0, the computed reward
is 0 for every rank, and a claim by any ranked, unclaimed,
threshold-meeting player fails with NoReward leaving the state unchanged. -/
theorem claim_C8_zero_pool (s : RewardsState) (p : Address) (i : Nat)
    (hsnap : s.prizePoolSnapshot = 0) (hpool : s.prizePool = 0)
    (hp : p ≠ 0) (hcl : s.hasClaimed p = false)
    (hpi : s.playerIndex p = i + 1) (hlt : i < s.leaderboard.length)
    (hplayer : (s.leaderboard.get ⟨i, hlt⟩).player = p)
    (hecl : (s.leaderboard.get ⟨i, hlt⟩).claimed = false)
    (hsc : s.minScoreThreshold ≤ (s.leaderboard.get ⟨i, hlt⟩).score) :
    calculateReward s i = 0 ∧
    claimRewards s p = Except.error RewardsError.NoReward ∧
    run s (Op.claim p) = s := by
  have hpfc : poolForCalculation s = 0 := by
    unfold poolForCalculation
    rw [hsnap, hpool, if_neg (lt_irrefl 0)]
  have hcr : calculateReward s i = 0 := by
    unfold calculateReward
    rw [hpfc, if_pos rfl]
  have hpfc2 : poolForCalculation (captureSnapshot s) = 0 := by
    unfold poolForCalculation captureSnapshot
    rw [if_pos hsnap]
    show (if 0 < s.prizePool then s.prizePool else s.prizePool) = 0
    rw [hpool, if_neg (lt_irrefl 0)]
  have hcrc : calculateReward (captureSnapshot s) i = 0 := by
    unfold calculateReward
    rw [hpfc2, if_pos rfl]
  have herr : claimRewards s p = Except.error RewardsError.NoReward := by
    unfold claimRewards
    rw [hpi]
    simp only [Nat.add_sub_cancel]
    rw [if_neg hp, if_neg (by simp [hcl]), if_neg (Nat.succ_ne_zero i), dif_pos hlt,
      if_neg (not_not_intro hplayer), if_neg (by rw [hecl]; simp),
      if_neg (Nat.not_lt.mpr hsc), if_pos hcrc]
  exact ⟨hcr, herr, run_eq_of_error herr⟩

/-- Claim C8 witness: player 10 is ranked first with a qualifying score but the
pool was never funded, so the claim fails with NoReward and changes
nothing. -/
theorem claim_C8_witness :
    calculateReward zeroPoolBase 0 = 0 ∧
    claimRewards zeroPoolBase 10 = Except.error RewardsError.NoReward ∧
    run zeroPoolBase (Op.claim 10) = zeroPoolBase :=
  claim_C8_zero_pool zeroPoolBase 10 0 (by decide) (by decide) (by decide) (by decide)
    (by decide) (by decide) (by decide) (by decide) (by decide)

/-- Claim C9: on a full 100-entry board in which every stored score is at least the
submitted one, a valid submitScore for an unranked player succeeds and emits
the score-submitted event, yet the board is unchanged afterwards and the
player is unranked, because the new entry is appended at position 101 and
immediately evicted as the lowest entry. -/
theorem claim_C9_full_board_append_evict (s : RewardsState) (m p : Address) (sc ts : Nat)
    (hm : m = s.backendValidator) (hp : p ≠ 0) (hth : s.minScoreThreshold ≤ sc)
    (hpi : s.playerIndex p = 0)
    (hlen : s.leaderboard.length = MAX_LEADERBOARD_SIZE)
    (hall : ∀ e ∈ s.leaderboard, sc ≤ e.score) :
    submitScore s m p sc ts =
      Except.ok (insertIntoLeaderboard s p sc ts, [RewardsEvent.ScoreSubmitted p sc ts]) ∧
    (insertIntoLeaderboard s p sc ts).leaderboard = s.leaderboard ∧
    (insertIntoLeaderboard s p sc ts).playerIndex p = 0 := by
  have hsub : submitScore s m p sc ts =
      Except.ok (insertIntoLeaderboard s p sc ts,
        [RewardsEvent.ScoreSubmitted p sc ts]) := by
    unfold submitScore
    rw [if_neg (not_not_intro hm), if_neg hp, if_neg (Nat.not_lt.mpr hth), if_pos hpi]
  have hidx : findInsertIndex sc s.leaderboard = s.leaderboard.length :=
    findInsertIndex_of_all_ge hall
  have hins : insertAt s.leaderboard (findInsertIndex sc s.leaderboard) ⟨p, sc, ts, false⟩ =
      s.leaderboard ++ [⟨p, sc, ts, false⟩] := by
    rw [hidx]
    unfold insertAt
    rw [List.take_length, List.drop_length]
  have hc : MAX_LEADERBOARD_SIZE <
      (insertAt s.leaderboard (findInsertIndex sc s.leaderboard) ⟨p, sc, ts, false⟩).length := by
    rw [hins, List.length_append, hlen]
    simp
  have hlb : (insertIntoLeaderboard s p sc ts).leaderboard = s.leaderboard := by
    rw [insertIntoLeaderboard_leaderboard, if_pos hc, hins, List.dropLast_concat]
  have hlast : ((insertAt s.leaderboard (findInsertIndex sc s.leaderboard)
      ⟨p, sc, ts, false⟩).getLastD ⟨p, sc, ts, false⟩).player = p := by
    rw [hins, getLastD_concat]
  have hpif : (insertIntoLeaderboard s p sc ts).playerIndex =
      setIndex
        (setIndex
          (writeIndices s.playerIndex
            (indexAssignments (s.leaderboard.drop (findInsertIndex sc s.leaderboard))
              (findInsertIndex sc s.leaderboard + 1)))
          p (findInsertIndex sc s.leaderboard + 1))
        ((insertAt s.leaderboard (findInsertIndex sc s.leaderboard)
            ⟨p, sc, ts, false⟩).getLastD ⟨p, sc, ts, false⟩).player 0 := by
    simp only [insertIntoLeaderboard, if_pos hc]
  have hpi' : (insertIntoLeaderboard s p sc ts).playerIndex p = 0 := by
    rw [hpif, hlast]
    simp [setIndex]
  exact ⟨hsub, hlb, hpi'⟩

/-- Claim C9 witness: submitting score 900 for unranked player 110 on the full
board whose lowest score is 901 succeeds with the event but leaves the board
unchanged and the player unranked. -/
theorem claim_C9_witness :
    submitScore board100 2 110 900 0 =
      Except.ok (insertIntoLeaderboard board100 110 900 0,
        [RewardsEvent.ScoreSubmitted 110 900 0]) ∧
    (insertIntoLeaderboard board100 110 900 0).leaderboard = board100.leaderboard ∧
    (insertIntoLeaderboard board100 110 900 0).playerIndex 110 = 0 :=
  claim_C9_full_board_append_evict board100 2 110 900 0 (by decide) (by decide)
    (by decide) (by decide) (by decide) (by decide)

/-- Claim C10: setMinScoreThreshold called by the owner succeeds for every value
with no validation and changes only the threshold; entries below a raised
threshold stay ranked, but their claims then fail with ScoreTooLow and they
are excluded from the participation-tier eligible count. -/
theorem claim_C10_threshold_setter (s : RewardsState) (m : Address) (v : Nat)
    (hm : m = s.owner) :
    ∃ s', setMinScoreThreshold s m v = Except.ok (s', []) ∧
      s'.minScoreThreshold = v ∧
      s'.leaderboard = s.leaderboard ∧
      s'.playerIndex = s.playerIndex ∧
      s'.prizePool = s.prizePool ∧
      s'.prizePoolSnapshot = s.prizePoolSnapshot ∧
      s'.hasClaimed = s.hasClaimed ∧
      s'.owner = s.owner ∧
      s'.backendValidator = s.backendValidator ∧
      s'.engineBalance = s.engineBalance ∧
      s'.tokenTotalSupply = s.tokenTotalSupply ∧
      (∀ (p : Address) (i : Nat) (hlt : i < s'.leaderboard.length),
          p ≠ 0 → s'.hasClaimed p = false → s'.playerIndex p = i + 1 →
          (s'.leaderboard.get ⟨i, hlt⟩).player = p →
          (s'.leaderboard.get ⟨i, hlt⟩).claimed = false →
          (s'.leaderboard.get ⟨i, hlt⟩).score < v →
          claimRewards s' p = Except.error RewardsError.ScoreTooLow) ∧
      countEligiblePlayers s' =
        (s.leaderboard.filter (fun e => v ≤ e.score)).length := by
  refine ⟨{ s with minScoreThreshold := v }, ?_, rfl, rfl, rfl, rfl, rfl, rfl, rfl, rfl,
    rfl, rfl, ?_, rfl⟩
  · unfold setMinScoreThreshold
    rw [if_neg (not_not_intro hm)]
  · intro p i hlt hp hhc hpi hplayer hecl hscore
    unfold claimRewards
    rw [hpi]
    simp only [Nat.add_sub_cancel]
    rw [if_neg hp, if_neg (by rw [hhc]; simp), if_neg (Nat.succ_ne_zero i), dif_pos hlt,
      if_neg (not_not_intro hplayer), if_neg (by rw [hecl]; simp), if_pos hscore]

/-- Claim C10 witness: raising the threshold to 60 on a board holding scores 80 and
50 succeeds, changes only the threshold, makes player 10's (score 50) claim
fail with ScoreTooLow, and shrinks the eligible count to 1. -/
theorem claim_C10_witness :
    ∃ s', setMinScoreThreshold twoEntryBase 1 60 = Except.ok (s', []) ∧
      s'.minScoreThreshold = 60 ∧
      s'.leaderboard = twoEntryBase.leaderboard ∧
      s'.playerIndex = twoEntryBase.playerIndex ∧
      s'.prizePool = twoEntryBase.prizePool ∧
      s'.prizePoolSnapshot = twoEntryBase.prizePoolSnapshot ∧
      s'.hasClaimed = twoEntryBase.hasClaimed ∧
      s'.owner = twoEntryBase.owner ∧
      s'.backendValidator = twoEntryBase.backendValidator ∧
      s'.engineBalance = twoEntryBase.engineBalance ∧
      s'.tokenTotalSupply = twoEntryBase.tokenTotalSupply ∧
      (∀ (p : Address) (i : Nat) (hlt : i < s'.leaderboard.length),
          p ≠ 0 → s'.hasClaimed p = false → s'.playerIndex p = i + 1 →
          (s'.leaderboard.get ⟨i, hlt⟩).player = p →
          (s'.leaderboard.get ⟨i, hlt⟩).claimed = false →
          (s'.leaderboard.get ⟨i, hlt⟩).score < 60 →
          claimRewards s' p = Except.error RewardsError.ScoreTooLow) ∧
      countEligiblePlayers s' =
        (twoEntryBase.leaderboard.filter (fun e => 60 ≤ e.score)).length :=
  claim_C10_threshold_setter twoEntryBase 1 60 rfl

end GamePass
